import Mathlib

/-!
# Scan-out engine of the DSI display driver (`drivers/display/dsi.h`)

A shallow embedding of the geometry calculator, the per-line refresh callback,
and the producer-side buffer handoff of `dsi.h`, and of the initialisation
tables of the three panel drivers under `components/lcddrv`.

Conventions of the embedding.

* C `int` values are mathematical integers (`Int`); `/` on `int` is C division,
  which truncates toward zero (`Int.tdiv`).  The model agrees with the C code
  whenever no intermediate value leaves the range of `int`.
* The preprocessor symbols `LCD_ROTATION`, `LCD_SCALING`, `TEST_LCD_H_RES` and
  `TEST_LCD_V_RES` are the fields of `Config`; `compiled` is the configuration
  that `dsi.h` actually defines.
* Pointers are integer addresses counted in 16-bit pixels, `NULL` is `0`, and
  memory is one flat map from addresses to pixel values.
* The two FreeRTOS binary semaphores are booleans (`true` = available).
-/

namespace Dsi

/-- The compile-time configuration: the preprocessor symbols of `dsi.h`. -/
structure Config where
  /-- `LCD_ROTATION` is defined. -/
  rotation : Bool
  /-- `LCD_SCALING`. -/
  scaling : Int
  /-- `TEST_LCD_H_RES`. -/
  h_res : Int
  /-- `TEST_LCD_V_RES`. -/
  v_res : Int

/-- The configuration written in `dsi.h`: rotation on, scaling 3, panel 720 x 720. -/
def compiled : Config :=
  { rotation := true, scaling := 3, h_res := 720, v_res := 720 }

/-- The same panel and scaling with `LCD_ROTATION` left undefined. -/
def unrotated : Config :=
  { rotation := false, scaling := 3, h_res := 720, v_res := 720 }

/-- Pixel memory: address (in pixels) to 16-bit pixel value. -/
abbrev Mem := Int → Nat

/-- `lcd_config_t`. -/
structure lcd_config_t where
  buffer_width : Int
  buffer_height : Int
  prefer_vsync_over_fps : Int

/-- The global variables of `dsi.h` together with pixel memory. -/
structure State where
  /-- `fb_hw[0]`. -/
  fb_hw0 : Int
  /-- `fb_hw[1]`. -/
  fb_hw1 : Int
  /-- `fb[0]`. -/
  fb0 : Int
  /-- `fb[1]`. -/
  fb1 : Int
  fb_back : Int
  fb_buffer_width : Int
  fb_buffer_height : Int
  prefer_vsync_over_fps : Int
  m_fb_front : Int
  line_block_cnt : Int
  /-- Binary semaphore `vsync_event`; `true` when it can be taken. -/
  vsync_event : Bool
  /-- Binary semaphore `fb_ready`; `true` when it can be taken. -/
  fb_ready : Bool
  ofs_src_start : Int
  ofs_x : Int
  ofs_y : Int
  ofs_src : Int
  ofs_src_line_inc : Int
  linebuf_width : Int
  /-- The panel's `on_refresh_done` callback is `test_notify_refresh_ready`:
  set by `esp_lcd_dpi_panel_register_event_callbacks` in `test_init_lcd`. -/
  on_refresh_done : Bool
  mem : Mem

/-- The assignments of `calculate_image_offset` that precede the clamping `if`. -/
def calculate_image_offset_raw (cfg : Config) (s : State) : State :=
  if cfg.rotation then
    let ofs_x := (cfg.v_res - s.fb_buffer_width * cfg.scaling).tdiv 2
    let ofs_y := (cfg.h_res - s.fb_buffer_height * cfg.scaling).tdiv 2
    { s with
      ofs_x := ofs_x
      ofs_y := ofs_y
      ofs_src_start := (-ofs_x).tdiv cfg.scaling
      ofs_src_line_inc := 1
      linebuf_width := s.fb_buffer_height }
  else
    let ofs_x := (cfg.h_res - s.fb_buffer_width * cfg.scaling).tdiv 2
    let ofs_y := (cfg.v_res - s.fb_buffer_height * cfg.scaling).tdiv 2
    { s with
      ofs_x := ofs_x
      ofs_y := ofs_y
      ofs_src_start := ((-ofs_y).tdiv cfg.scaling) * s.fb_buffer_width
      ofs_src_line_inc := s.fb_buffer_width
      linebuf_width := s.fb_buffer_width }

/-- The function `calculate_image_offset`: the raw assignments, the clamp of the
negative offset, and `ofs_src = ofs_src_start`. -/
def calculate_image_offset (cfg : Config) (s : State) : State :=
  let s1 := calculate_image_offset_raw cfg s
  let s2 : State :=
    if cfg.rotation then
      if s1.ofs_y < 0 then
        { s1 with
          ofs_src_line_inc :=
            s1.ofs_src_line_inc - (s1.ofs_y.tdiv cfg.scaling) * s1.fb_buffer_width
          linebuf_width := cfg.h_res.tdiv cfg.scaling
          ofs_y := 0 }
      else s1
    else
      if s1.ofs_x < 0 then
        { s1 with
          ofs_src_start := s1.ofs_src_start - s1.ofs_x.tdiv cfg.scaling
          linebuf_width := cfg.h_res.tdiv cfg.scaling
          ofs_x := 0 }
      else s1
  { s2 with ofs_src := s2.ofs_src_start }

/-- The zero-initialised globals before any function of the driver has run
(`line_block_cnt` starts at 2), over a given memory. -/
def boot (mem : Mem) : State :=
  { fb_hw0 := 0, fb_hw1 := 0, fb0 := 0, fb1 := 0, fb_back := 0
    fb_buffer_width := 0, fb_buffer_height := 0, prefer_vsync_over_fps := 0
    m_fb_front := 0, line_block_cnt := 2
    vsync_event := false, fb_ready := false
    ofs_src_start := 0, ofs_x := 0, ofs_y := 0, ofs_src := 0
    ofs_src_line_inc := 0, linebuf_width := 0
    on_refresh_done := false
    mem := mem }

/-- The globals with the logical dimensions set, as `test_init_lcd` sets them
before it calls `calculate_image_offset`. -/
def with_dims (s : State) (w h : Int) : State :=
  { s with fb_buffer_width := w, fb_buffer_height := h }

/-- One observable action of the driver: an access to the front frame buffer or
to the hardware line (indices relative to `m_fb_front` and to `fb_line`), or an
operation on one of the two semaphores. -/
inductive Event where
  /-- A read of `m_fb_front[idx]`. -/
  | read_front (idx : Int)
  /-- A write of `fb_line[idx]`. -/
  | write_line (idx : Int)
  /-- The call `xSemaphoreTakeFromISR(fb_ready, NULL)` with its outcome. -/
  | take_fb_ready (ok : Bool)
  /-- The call `xSemaphoreGiveFromISR(vsync_event, NULL)`. -/
  | give_vsync
  deriving DecidableEq, Repr

/-- A store of one pixel. -/
def store (m : Mem) (a : Int) (v : Nat) : Mem :=
  fun b => if b = a then v else m b

/-- FreeRTOS `xSemaphoreGive` on a binary semaphore: afterwards it is available. -/
def xSemaphoreGive (_sem : Bool) : Bool := true

/-- FreeRTOS `xSemaphoreTake` with zero timeout on a binary semaphore: the
result (`pdTRUE` exactly when it was available) and the semaphore afterwards. -/
def xSemaphoreTake (sem : Bool) : Bool × Bool := (sem, false)

/-- The local variables of the copy loop of the callback, with the memory it
writes and the accesses made so far. -/
structure Copy where
  dst : Int
  src : Int
  mem : Mem
  trace : List Event

/-- The statement pair `*dst = *src; dst++;` of the copy loop, where `dst`
points into the hardware line `line` and `src` into the frame buffer `front`. -/
def emit (front line : Int) (c : Copy) : Copy :=
  { c with
    mem := store c.mem (line + c.dst) (c.mem (front + c.src))
    trace := c.trace ++ [Event.read_front c.src, Event.write_line c.dst]
    dst := c.dst + 1 }

/-- The body of `for (int x = 0; x < linebuf_width; x++)`: one, two or three
copies of the source pixel, then the step of `src`. -/
def copy_body (cfg : Config) (w front line : Int) (c : Copy) : Copy :=
  let c1 := emit front line c
  let c2 := if 2 ≤ cfg.scaling then emit front line c1 else c1
  let c3 := if 3 ≤ cfg.scaling then emit front line c2 else c2
  { c3 with src := if cfg.rotation then c3.src - w else c3.src + 1 }

/-- The copy loop, run for the given number of iterations. -/
def copy_loop (cfg : Config) (w front line : Int) : Nat → Copy → Copy
  | 0, c => c
  | n + 1, c => copy_loop cfg w front line n (copy_body cfg w front line c)

/-- The blanking loop: `dst` is a `uint32_t *` starting at `&fb_line[0]`, so the
store number `d` clears the two pixels `2 * d` and `2 * d + 1`. -/
def blank_loop (line : Int) : Nat → Int → Mem → List Event → Mem × List Event
  | 0, _, m, tr => (m, tr)
  | n + 1, d, m, tr =>
    blank_loop line n (d + 1)
      (store (store m (line + 2 * d) 0) (line + (2 * d + 1)) 0)
      (tr ++ [Event.write_line (2 * d), Event.write_line (2 * d + 1)])

/-- The array access `fb_hw[fb_num]`; the array has two entries. -/
def fb_hw_at (s : State) (fb_num : Nat) : Option Int :=
  if fb_num = 0 then some s.fb_hw0
  else if fb_num = 1 then some s.fb_hw1
  else none

/-- The underrun branch at the head of the callback (lines 144 to 150). -/
def underrun_adjust (s : State) (user_ctx : Nat) : State :=
  if user_ctx &&& 0xff00 ≠ 0 then
    { s with
      line_block_cnt := 1
      ofs_src := s.ofs_src_start + s.ofs_src_line_inc }
  else s

/-- The condition of the `if` that selects copying over blanking. -/
def in_source_range (cfg : Config) (s : State) : Bool :=
  if cfg.rotation then
    decide (0 ≤ s.ofs_src) && decide (s.ofs_src < s.fb_buffer_width)
  else
    decide (0 ≤ s.ofs_src) && decide (s.ofs_src < s.fb_buffer_height * s.fb_buffer_width)

/-- The rendering of one hardware line (lines 155 to 194): the memory
afterwards and the accesses made. -/
def render_line (cfg : Config) (s : State) (fb_line : Int) : Mem × List Event :=
  if in_source_range cfg s then
    let dst := if cfg.rotation then s.ofs_y else s.ofs_x
    let src :=
      if cfg.rotation then s.ofs_src + (s.linebuf_width - 1) * s.fb_buffer_width
      else s.ofs_src
    let c := copy_loop cfg s.fb_buffer_width s.m_fb_front fb_line s.linebuf_width.toNat
      { dst := dst, src := src, mem := s.mem, trace := [] }
    (c.mem, c.trace)
  else
    blank_loop fb_line (cfg.h_res.tdiv 2).toNat 0 s.mem []

/-- The cursor update and the frame boundary (lines 198 to 217). -/
def frame_sync (cfg : Config) (s : State) : State × List Event :=
  let s1 := { s with ofs_src := s.ofs_src + s.ofs_src_line_inc }
  let s2 := { s1 with line_block_cnt := s1.line_block_cnt + 1 }
  if s2.line_block_cnt = cfg.v_res.tdiv cfg.scaling then
    let s3 := { s2 with line_block_cnt := 0, ofs_src := s2.ofs_src_start }
    if s3.prefer_vsync_over_fps ≠ 0 then
      let r := xSemaphoreTake s3.fb_ready
      if r.1 then
        ({ s3 with fb_ready := r.2, vsync_event := xSemaphoreGive s3.vsync_event },
          [Event.take_fb_ready true, Event.give_vsync])
      else
        (s3, [Event.take_fb_ready false])
    else
      ({ s3 with vsync_event := xSemaphoreGive s3.vsync_event }, [Event.give_vsync])
  else
    (s2, [])

/-- The refresh callback `test_notify_refresh_ready`.  The argument is the
context word `(uint32_t) user_ctx`.  The result is `none` when the access
`fb_hw[fb_num]` is outside the array or `assert(fb_line)` fails; otherwise it is
the state afterwards and the actions of the invocation in order.
`esp_cache_msync` does not change the modelled memory. -/
def test_notify_refresh_ready (cfg : Config) (s : State) (user_ctx : Nat) :
    Option (State × List Event) :=
  let fb_num := user_ctx &&& 0xff
  let s1 := underrun_adjust s user_ctx
  match fb_hw_at s1 fb_num with
  | none => none
  | some fb_line =>
    if fb_line = 0 then none
    else
      let r := render_line cfg s1 fb_line
      let f := frame_sync cfg { s1 with mem := r.1 }
      some (f.1, r.2 ++ f.2)

/-- A finite sequence of callback invocations, one per context word, with the
actions of all of them in order. -/
def run_refresh (cfg : Config) : State → List Nat → Option (State × List Event)
  | s, [] => some (s, [])
  | s, c :: cs =>
    match test_notify_refresh_ready cfg s c with
    | none => none
    | some r1 =>
      match run_refresh cfg r1.1 cs with
      | none => none
      | some r2 => some (r2.1, r1.2 ++ r2.2)

/-- The function `test_init_lcd`.  The calls into ESP-IDF and the panel driver
are taken to succeed; `hw0` and `hw1` are the two line buffers that
`esp_lcd_dpi_panel_get_frame_buffer` returns. -/
def test_init_lcd (cfg : Config) (s : State) (lcd_config : lcd_config_t)
    (hw0 hw1 : Int) : State :=
  let s1 := { s with
    fb_buffer_width := lcd_config.buffer_width
    fb_buffer_height := lcd_config.buffer_height
    prefer_vsync_over_fps := lcd_config.prefer_vsync_over_fps }
  let s2 := calculate_image_offset cfg s1
  let s3 := { s2 with fb_hw0 := hw0, fb_hw1 := hw1 }
  -- `cbs.on_refresh_done = test_notify_refresh_ready` is registered
  let s3r := { s3 with on_refresh_done := true }
  -- `xSemaphoreCreateBinary` creates a semaphore that is not available
  let s4 := { s3r with vsync_event := false, fb_ready := false }
  let s5 := { s4 with vsync_event := xSemaphoreGive s4.vsync_event }
  let s6 := { s5 with fb_ready := xSemaphoreGive s5.fb_ready }
  { s6 with fb_ready := (xSemaphoreTake s6.fb_ready).2 }

/-- The function `set_fb_front`. -/
def set_fb_front (s : State) (fb_front : Int) : State :=
  { s with m_fb_front := fb_front }

/-- The function `lcd_set_fb_ready`. -/
def lcd_set_fb_ready (s : State) : State :=
  { s with fb_ready := xSemaphoreGive s.fb_ready }

/-- The function `lcd_wait_vsync`, as one atomic step: it returns once
`vsync_event` has been taken.  The result is `none` when the semaphore is not
available: the loop then spins, and does so until a refresh callback gives it. -/
def lcd_wait_vsync (s : State) : Option State :=
  let r := xSemaphoreTake s.vsync_event
  if r.1 then some { s with vsync_event := r.2 } else none

/-- The function `lcd_sync`. -/
def lcd_sync (s : State) : Option State :=
  lcd_wait_vsync s

/-- The function `lcd_get_buffer`. -/
def lcd_get_buffer (s : State) (_length : Nat) : Int :=
  s.m_fb_front

/-- The copy loop of `lcd_send_buffer`: `*dst = *src; dst++; src++;`. -/
def send_loop : Nat → Int → Int → Mem → Mem
  | 0, _, _, m => m
  | n + 1, dst, src, m => send_loop n (dst + 1) (src + 1) (store m dst (m src))

/-- The function `lcd_send_buffer`, as one atomic step; `none` when the call
stays in `lcd_wait_vsync`. -/
def lcd_send_buffer (s : State) (buffer : Int) (length : Nat) : Option State :=
  let s1 := { s with mem := send_loop length s.fb_back buffer s.mem }
  match lcd_wait_vsync s1 with
  | none => none
  | some s2 =>
    let s3 :=
      if s2.fb_back = s2.fb0 then set_fb_front { s2 with fb_back := s2.fb1 } s2.fb0
      else set_fb_front { s2 with fb_back := s2.fb0 } s2.fb1
    some (lcd_set_fb_ready s3)

/-- A finite sequence of `lcd_send_buffer` calls, each given as the source
buffer and the length; `none` when one of them stays in `lcd_wait_vsync`. -/
def run_send : State → List (Int × Nat) → Option State
  | s, [] => some s
  | s, b :: bs =>
    match lcd_send_buffer s b.1 b.2 with
    | none => none
    | some s1 => run_send s1 bs

/-- `TEST_BUFFER_WIDTH`. -/
def TEST_BUFFER_WIDTH : Int := 320

/-- `TEST_BUFFER_HEIGHT`. -/
def TEST_BUFFER_HEIGHT : Int := 240

/-- `PREFER_VSYNC_OVER_FPS`. -/
def PREFER_VSYNC_OVER_FPS : Int := 0

/-- The effect of `heap_caps_calloc` on memory: `n` zeroed pixels at `p`. -/
def calloc_zero (m : Mem) (p n : Int) : Mem :=
  fun a => if p ≤ a ∧ a < p + n then 0 else m a

/-- The function `lcd_init`.  The pointers `p0` and `p1` are what the two calls
of `heap_caps_calloc` return (each block holds `320 * 240` pixels); the result
is `none` when `assert(fb[i])` fails. -/
def lcd_init (cfg : Config) (s : State) (p0 p1 hw0 hw1 : Int) : Option State :=
  if p0 = 0 then none
  else
    let s1 := { s with fb0 := p0, mem := calloc_zero s.mem p0 (320 * 240) }
    if p1 = 0 then none
    else
      let s2 := { s1 with fb1 := p1, mem := calloc_zero s1.mem p1 (320 * 240) }
      let s3 := set_fb_front s2 s2.fb1
      some (test_init_lcd cfg s3
        { buffer_width := TEST_BUFFER_WIDTH
          buffer_height := TEST_BUFFER_HEIGHT
          prefer_vsync_over_fps := PREFER_VSYNC_OVER_FPS } hw0 hw1)

/-- The number of copies of each source pixel that one iteration of the copy
loop stores: the unrolling selected by `LCD_SCALING`. -/
def rep (cfg : Config) : Int :=
  if 3 ≤ cfg.scaling then 3 else if 2 ≤ cfg.scaling then 2 else 1

/-- The step of `src` per iteration of the copy loop. -/
def src_step (cfg : Config) (w : Int) : Int :=
  if cfg.rotation then -w else 1

/-- The callback gets past `fb_hw[fb_num]` and `assert(fb_line)`: the buffer
number is 0 or 1 and the line buffer pointer is not `NULL`. -/
def line_ready (s : State) (user_ctx : Nat) : Bool :=
  match fb_hw_at s (user_ctx &&& 0xff) with
  | some p => decide (p ≠ 0)
  | none => false

/-- An access stays inside a front buffer of `front_len` pixels and a hardware
line of `line_len` pixels; semaphore operations are not memory accesses. -/
def access_ok (front_len line_len : Int) : Event → Bool
  | Event.read_front i => decide (0 ≤ i) && decide (i < front_len)
  | Event.write_line i => decide (0 ≤ i) && decide (i < line_len)
  | Event.take_fb_ready _ => true
  | Event.give_vsync => true

/-- The globals with the scan-out cursor replaced: `ofs_src` and
`line_block_cnt` set to the given values. -/
def with_cursor (s : State) (ofs_src line_block_cnt : Int) : State :=
  { s with ofs_src := ofs_src, line_block_cnt := line_block_cnt }

/-- The state and the actions of a callback invocation that got past
`assert(fb_line)` with the line buffer `fb_line`. -/
def refresh_result (cfg : Config) (s : State) (user_ctx : Nat) (fb_line : Int) :
    State × List Event :=
  let s1 := underrun_adjust s user_ctx
  let r := render_line cfg s1 fb_line
  let f := frame_sync cfg { s1 with mem := r.1 }
  (f.1, r.2 ++ f.2)

/-- The invocation reaches the frame boundary: counting this line makes
`line_block_cnt`, after the underrun adjustment, equal to
`TEST_LCD_V_RES / LCD_SCALING`. -/
def at_boundary (cfg : Config) (s : State) (user_ctx : Nat) : Bool :=
  decide ((underrun_adjust s user_ctx).line_block_cnt + 1 = cfg.v_res.tdiv cfg.scaling)

/-- No invocation of the run reaches a frame boundary. -/
def no_boundary (cfg : Config) : State → List Nat → Bool
  | _, [] => true
  | s, c :: cs =>
    !(at_boundary cfg s c) &&
      match test_notify_refresh_ready cfg s c with
      | none => true
      | some r => no_boundary cfg r.1 cs

/-- A state of normal operation of the compiled build with the 320 x 240 frame,
used as concrete input: line buffers at 1000 and 2000, frame buffers at 100000
(back) and 200000 (front), all memory zero. -/
def steady (prefer : Int) (vsync_event fb_ready : Bool) : State :=
  calculate_image_offset compiled
    { boot (fun _ => 0) with
      fb_hw0 := 1000
      fb_hw1 := 2000
      fb0 := 100000
      fb1 := 200000
      fb_back := 100000
      m_fb_front := 200000
      fb_buffer_width := 320
      fb_buffer_height := 240
      prefer_vsync_over_fps := prefer
      vsync_event := vsync_event
      fb_ready := fb_ready
      line_block_cnt := 0 }

/-- The scan-out cursor of an image that fills the frame: the start offset is
0, a frame of `TEST_LCD_V_RES / LCD_SCALING` lines stays inside the range that the
copy branch accepts, and the cursor has advanced by at most one increment per
line counted. -/
def scan_inv (cfg : Config) (s : State) : Prop :=
  s.ofs_src_start = 0
    ∧ 1 ≤ s.ofs_src_line_inc
    ∧ cfg.v_res.tdiv cfg.scaling * s.ofs_src_line_inc
        ≤ (if cfg.rotation then s.fb_buffer_width
            else s.fb_buffer_height * s.fb_buffer_width)
    ∧ 2 ≤ cfg.v_res.tdiv cfg.scaling
    ∧ 0 ≤ s.ofs_src
    ∧ s.ofs_src ≤ s.line_block_cnt * s.ofs_src_line_inc
    ∧ 0 ≤ s.line_block_cnt
    ∧ s.line_block_cnt < cfg.v_res.tdiv cfg.scaling

/-- The conversion of a real value to `int` in C: truncation toward zero, here
on an exact rational. -/
def c_trunc (q : ℚ) : Int :=
  q.num.tdiv q.den

/-- The function `lcd_set_backlight`, with `percent` an exact rational and the
constant `2.55` the rational `255 / 100`.  The result is the duty that is
written with `ledc_set_duty` and `ledc_update_duty`, or `none` when the function
returns without writing. -/
def lcd_set_backlight (percent : ℚ) : Option Int :=
  let level := c_trunc (percent * (255 / 100))
  if level < 0 ∨ level > 255 then none else some level

/-- The globals with the pacing mode and the two signals replaced. -/
def with_pacing (s : State) (prefer : Int) (vsync_event fb_ready : Bool) : State :=
  { s with
    prefer_vsync_over_fps := prefer
    vsync_event := vsync_event
    fb_ready := fb_ready }

/-- An atomic step of the system: a call of `lcd_send_buffer` by the producer,
or one invocation of the refresh callback with its context word. -/
inductive Action where
  | send (buffer : Int) (length : Nat)
  | refresh (user_ctx : Nat)

/-- A finite sequence of atomic steps.  The result is `none` when a step cannot
be taken: an `lcd_send_buffer` that stays in `lcd_wait_vsync` (it is enabled
only when `vsync_event` is available), or a callback that fails its assertion. -/
def run_actions (cfg : Config) : State → List Action → Option State
  | s, [] => some s
  | s, Action.send buffer length :: as =>
    match lcd_send_buffer s buffer length with
    | none => none
    | some s1 => run_actions cfg s1 as
  | s, Action.refresh user_ctx :: as =>
    match test_notify_refresh_ready cfg s user_ctx with
    | none => none
    | some r => run_actions cfg r.1 as

/-- An entry of an initialisation table, `*_lcd_init_cmd_t`: the command, the
data bytes listed for it, the declared number of data bytes, and the delay after
the command. -/
structure lcd_init_cmd_t where
  cmd : Nat
  data : List Nat
  data_bytes : Nat
  delay_ms : Nat

/-- The loop of `panel_*_send_init_cmds`, the same in the three drivers: each
entry is sent with `esp_lcd_panel_io_tx_param(io, cmd, data, data_bytes)`, which
transmits the command and the first `data_bytes` bytes of `data`.  The argument
`tx_ok` is the result of that call (whether it returned `ESP_OK`).  The result
is the list of transmissions made, as command and parameter bytes, and whether
the function returned `ESP_OK`. -/
def send_init_cmds (tx_ok : Nat → List Nat → Bool) :
    List lcd_init_cmd_t → List (Nat × List Nat) × Bool
  | [] => ([], true)
  | c :: cs =>
    if tx_ok c.cmd (c.data.take c.data_bytes) then
      ((c.cmd, c.data.take c.data_bytes) :: (send_init_cmds tx_ok cs).1,
        (send_init_cmds tx_ok cs).2)
    else
      ([], false)

/-- The entry declares as many data bytes as are listed for it, or is one of the
parameterless commands `0x11` (sleep out) and `0x29` (display on). -/
def size_declared (c : lcd_init_cmd_t) : Bool :=
  c.cmd == 0x11 || c.cmd == 0x29 || c.data_bytes == c.data.length

namespace Dxq3d9502

/-- The table `vendor_specific_init_default` of `esp_lcd_dxq3d9502.c`. -/
def vendor_specific_init_default : List lcd_init_cmd_t :=
  [
  ⟨0xB9, [0xF1, 0x12, 0x83], 3, 0⟩,
  ⟨0xBA, [0x31, 0x81, 0x05, 0xF9, 0x0E, 0x0E, 0x20, 0x00, 0x00, 0x00, 0x00, 0x00, 0x00, 0x00,
      0x44, 0x25, 0x00, 0x90, 0x0A, 0x00, 0x00, 0x01, 0x4F, 0x01, 0x00, 0x00, 0x37], 27, 0⟩,
  ⟨0xB8, [0x25, 0x22, 0xF0, 0x63], 4, 0⟩,
  ⟨0xBF, [0x02, 0x11, 0x00], 3, 0⟩,
  ⟨0xB3, [0x10, 0x10, 0x28, 0x28, 0x03, 0xFF, 0x00, 0x00, 0x00, 0x00], 10, 0⟩,
  ⟨0xC0, [0x73, 0x73, 0x50, 0x50, 0x00, 0x00, 0x12, 0x70, 0x00], 0, 0⟩,
  ⟨0xBC, [0x46], 1, 0⟩,
  ⟨0xCC, [0x0B], 1, 0⟩,
  ⟨0xB4, [0x80], 1, 0⟩,
  ⟨0xB2, [0x3C, 0x12, 0x30], 3, 0⟩,
  ⟨0xE3, [0x07, 0x07, 0x0B, 0x0B, 0x03, 0x0B, 0x00, 0x00, 0x00, 0x00, 0xFF, 0x00, 0xC0, 0x10], 14, 0⟩,
  ⟨0xC1, [0x36, 0x00, 0x32, 0x32, 0x77, 0xF1, 0xCC, 0xCC, 0x77, 0x77, 0x33, 0x33], 12, 0⟩,
  ⟨0xB5, [0x0A, 0x0A], 2, 0⟩,
  ⟨0xB6, [0xB2, 0xB2], 2, 0⟩,
  ⟨0xE9, [0xC8, 0x10, 0x0A, 0x10, 0x0F, 0xA1, 0x80, 0x12, 0x31, 0x23, 0x47, 0x86, 0xA1, 0x80,
      0x47, 0x08, 0x00, 0x00, 0x0D, 0x00, 0x00, 0x00, 0x00, 0x00, 0x0D, 0x00, 0x00, 0x00,
      0x48, 0x02, 0x8B, 0xAF, 0x46, 0x02, 0x88, 0x88, 0x88, 0x88, 0x88, 0x48, 0x13, 0x8B,
      0xAF, 0x57, 0x13, 0x88, 0x88, 0x88, 0x88, 0x88, 0x00, 0x00, 0x00, 0x00, 0x00, 0x00,
      0x00, 0x00, 0x00, 0x00, 0x00, 0x00, 0x00], 63, 0⟩,
  ⟨0xEA, [0x96, 0x12, 0x01, 0x01, 0x01, 0x78, 0x02, 0x00, 0x00, 0x00, 0x00, 0x00, 0x4F, 0x31,
      0x8B, 0xA8, 0x31, 0x75, 0x88, 0x88, 0x88, 0x88, 0x88, 0x4F, 0x20, 0x8B, 0xA8, 0x20,
      0x64, 0x88, 0x88, 0x88, 0x88, 0x88, 0x23, 0x00, 0x00, 0x01, 0x02, 0x00, 0x00, 0x00,
      0x00, 0x00, 0x00, 0x00, 0x00, 0x00, 0x00, 0x00, 0x00, 0x00, 0x00, 0x00, 0x40, 0xA1,
      0x80, 0x00, 0x00, 0x00, 0x00], 61, 0⟩,
  ⟨0xE0, [0x00, 0x0A, 0x0F, 0x29, 0x3B, 0x3F, 0x42, 0x39, 0x06, 0x0D, 0x10, 0x13, 0x15, 0x14,
      0x15, 0x10, 0x17, 0x00, 0x0A, 0x0F, 0x29, 0x3B, 0x3F, 0x42, 0x39, 0x06, 0x0D, 0x10,
      0x13, 0x15, 0x14, 0x15, 0x10, 0x17], 34, 0⟩,
  ⟨0x11, [0x00], 0, 250⟩,
  ⟨0x29, [0x00], 0, 50⟩ ]

/-- The function `panel_dxq3d9502_send_init_cmds`; `init_cmds` is the table of
the vendor configuration, `none` for a `NULL` pointer. -/
def panel_dxq3d9502_send_init_cmds (tx_ok : Nat → List Nat → Bool)
    (init_cmds : Option (List lcd_init_cmd_t)) : List (Nat × List Nat) × Bool :=
  match init_cmds with
  | some cmds => send_init_cmds tx_ok cmds
  | none => send_init_cmds tx_ok vendor_specific_init_default

end Dxq3d9502

namespace Hd395003c30

/-- The table `vendor_specific_init_default` of `esp_lcd_hd395003c30.c`. -/
def vendor_specific_init_default : List lcd_init_cmd_t :=
  [
  ⟨0xB9, [0xF1, 0x12, 0x87], 3, 0⟩,
  ⟨0xB2, [0xB4, 0x03, 0x70], 3, 0⟩,
  ⟨0xB3, [0x10, 0x10, 0x28, 0x28, 0x03, 0xFF, 0x00, 0x00, 0x00, 0x00], 10, 0⟩,
  ⟨0xB4, [0x80], 1, 0⟩,
  ⟨0xB5, [0x0A, 0x0A], 2, 0⟩,
  ⟨0xB6, [0x8D, 0x8D], 2, 0⟩,
  ⟨0xB8, [0x26, 0x22, 0xF0, 0x13], 4, 0⟩,
  ⟨0xBA, [0x31, 0x81, 0x05, 0xF9, 0x0E, 0x0E, 0x20, 0x00, 0x00, 0x00, 0x00, 0x00, 0x00, 0x00,
      0x44, 0x25, 0x00, 0x91, 0x0A, 0x00, 0x00, 0x01, 0x4F, 0x01, 0x00, 0x00, 0x37], 27, 0⟩,
  ⟨0xBC, [0x47], 1, 0⟩,
  ⟨0xBF, [0x02, 0x10, 0x00, 0x80, 0x04], 5, 0⟩,
  ⟨0xC0, [0x73, 0x73, 0x50, 0x50, 0x00, 0x00, 0x12, 0x73, 0x00], 9, 0⟩,
  ⟨0xC1, [0x36, 0x00, 0x32, 0x32, 0x77, 0xE1, 0x77, 0x77, 0xCC, 0xCC, 0xFF, 0xFF, 0x11, 0x11,
      0x00, 0x00, 0x32], 17, 0⟩,
  ⟨0xC7, [0x10, 0x00, 0x0A, 0x00, 0x00, 0x00, 0x00, 0x00, 0xED, 0xC5, 0x00, 0xA5], 12, 0⟩,
  ⟨0xC8, [0x10, 0x40, 0x1E, 0x03], 4, 0⟩,
  ⟨0xCC, [0x0B], 1, 0⟩,
  ⟨0xE0, [0x00, 0x0A, 0x0F, 0x2A, 0x33, 0x3F, 0x44, 0x39, 0x06, 0x0C, 0x0E, 0x14, 0x15, 0x13,
      0x15, 0x10, 0x18, 0x00, 0x0A, 0x0F, 0x2A, 0x33, 0x3F, 0x44, 0x39, 0x06, 0x0C, 0x0E,
      0x14, 0x15, 0x13, 0x15, 0x10, 0x18], 34, 0⟩,
  ⟨0xE1, [0x11, 0x11, 0x91, 0x00, 0x00, 0x00, 0x00], 7, 0⟩,
  ⟨0xE3, [0x07, 0x07, 0x0B, 0x0B, 0x0B, 0x0B, 0x00, 0x00, 0x00, 0x00, 0xFF, 0x04, 0xC0, 0x10], 14, 0⟩,
  ⟨0xE9, [0xC8, 0x10, 0x0A, 0x00, 0x00, 0x80, 0x81, 0x12, 0x31, 0x23, 0x4F, 0x86, 0xA0, 0x00,
      0x47, 0x08, 0x00, 0x00, 0x0C, 0x00, 0x00, 0x00, 0x00, 0x00, 0x0C, 0x00, 0x00, 0x00,
      0x98, 0x02, 0x8B, 0xAF, 0x46, 0x02, 0x88, 0x88, 0x88, 0x88, 0x88, 0x98, 0x13, 0x8B,
      0xAF, 0x57, 0x13, 0x88, 0x88, 0x88, 0x88, 0x88, 0x00, 0x00, 0x00, 0x00, 0x00, 0x00,
      0x00, 0x00, 0x00, 0x00, 0x00, 0x00, 0x00], 63, 0⟩,
  ⟨0xEA, [0x97, 0x0C, 0x09, 0x09, 0x09, 0x78, 0x00, 0x00, 0x00, 0x00, 0x00, 0x00, 0x9F, 0x31,
      0x8B, 0xA8, 0x31, 0x75, 0x88, 0x88, 0x88, 0x88, 0x88, 0x9F, 0x20, 0x8B, 0xA8, 0x20,
      0x64, 0x88, 0x88, 0x88, 0x88, 0x88, 0x23, 0x00, 0x00, 0x02, 0x71, 0x00, 0x00, 0x00,
      0x00, 0x00, 0x00, 0x00, 0x00, 0x00, 0x00, 0x00, 0x00, 0x00, 0x00, 0x00, 0x40, 0x80,
      0x81, 0x00, 0x00, 0x00, 0x00], 61, 0⟩,
  ⟨0xEF, [0xFF, 0xFF, 0x01], 3, 0⟩,
  ⟨0x11, [0x00], 0, 250⟩,
  ⟨0x29, [0x00], 0, 50⟩ ]

/-- The function `panel_hd395003c30_send_init_cmds`; `init_cmds` is the table of
the vendor configuration, `none` for a `NULL` pointer. -/
def panel_hd395003c30_send_init_cmds (tx_ok : Nat → List Nat → Bool)
    (init_cmds : Option (List lcd_init_cmd_t)) : List (Nat × List Nat) × Bool :=
  match init_cmds with
  | some cmds => send_init_cmds tx_ok cmds
  | none => send_init_cmds tx_ok vendor_specific_init_default

end Hd395003c30

namespace Kd040hdfid032

/-- The table `vendor_specific_init_default` of `esp_lcd_kd040hdfid032.c`. -/
def vendor_specific_init_default : List lcd_init_cmd_t :=
  [
  ⟨0xB9, [0xF1, 0x12, 0x83], 3, 0⟩,
  ⟨0xBA, [0x31, 0x81, 0x05, 0xF9, 0x0E, 0x0E, 0x20, 0x00, 0x00, 0x00, 0x00, 0x00, 0x00, 0x00,
      0x44, 0x25, 0x00, 0x91, 0x0A, 0x00, 0x00, 0x02, 0x4F, 0xD1, 0x00, 0x00, 0x37], 27, 0⟩,
  ⟨0xB8, [0x24, 0x22, 0x20, 0x03], 4, 0⟩,
  ⟨0xBF, [0x02, 0x11, 0x00], 3, 0⟩,
  ⟨0xB3, [0x10, 0x10, 0x0A, 0x50, 0x03, 0xFF, 0x00, 0x00, 0x00, 0x00], 10, 0⟩,
  ⟨0xC0, [0x73, 0x73, 0x50, 0x50, 0x00, 0x00, 0x08, 0x70, 0x00], 9, 0⟩,
  ⟨0xBC, [0x46], 1, 0⟩,
  ⟨0xCC, [0x0B], 1, 0⟩,
  ⟨0xB4, [0x80], 1, 0⟩,
  ⟨0xB2, [0x3C, 0x12, 0x30], 3, 0⟩,
  ⟨0xE3, [0x07, 0x07, 0x0B, 0x0B, 0x03, 0x0B, 0x00, 0x00, 0x00, 0x00, 0xFF, 0x00, 0x40, 0x10], 14, 0⟩,
  ⟨0xC1, [0x42, 0x00, 0x32, 0x32, 0x77, 0xF1, 0xCC, 0xCC, 0x77, 0x77, 0x33, 0x33], 12, 0⟩,
  ⟨0xB5, [0x0A, 0x0A], 2, 0⟩,
  ⟨0xB6, [0xB5, 0xB5], 2, 0⟩,
  ⟨0xE9, [0x88, 0x10, 0x0A, 0x10, 0x0F, 0xA1, 0x80, 0x12, 0x31, 0x23, 0x47, 0x86, 0xA1, 0x80,
      0x47, 0x08, 0x04, 0x44, 0x00, 0x00, 0x00, 0x00, 0x04, 0x44, 0x00, 0x00, 0x00, 0x00,
      0x75, 0x31, 0x88, 0x88, 0x88, 0x1F, 0x88, 0x38, 0xFF, 0x58, 0x88, 0x64, 0x20, 0x88,
      0x88, 0x88, 0x0F, 0x88, 0x28, 0xFF, 0x48, 0x88, 0x00, 0x00, 0x00, 0x00, 0x00, 0x00,
      0x00, 0x00, 0x00, 0x00, 0x00, 0x00, 0x00], 63, 0⟩,
  ⟨0xEA, [0x00, 0x1A, 0x00, 0x00, 0x00, 0x00, 0x02, 0x00, 0x00, 0x00, 0x00, 0x00, 0x02, 0x46,
      0x88, 0x88, 0x88, 0x28, 0x8F, 0x08, 0xFF, 0x48, 0x88, 0x13, 0x57, 0x88, 0x88, 0x88,
      0x38, 0x8F, 0x18, 0xFF, 0x58, 0x88, 0x23, 0x10, 0x00, 0x01, 0x02, 0x00, 0x00, 0x00,
      0x00, 0x00, 0x00, 0x00, 0x00, 0x00, 0x00, 0x00, 0x00, 0x00, 0x00, 0x00, 0x40, 0xA1,
      0x80, 0x00, 0x00, 0x00, 0x00], 61, 0⟩,
  ⟨0xE0, [0x00, 0x03, 0x06, 0x2D, 0x3E, 0x3F, 0x34, 0x32, 0x08, 0x0C, 0x0D, 0x10, 0x12, 0x11,
      0x12, 0x10, 0x15, 0x00, 0x03, 0x06, 0x2D, 0x3E, 0x3F, 0x34, 0x32, 0x08, 0x0C, 0x0D,
      0x10, 0x12, 0x11, 0x12, 0x10, 0x15], 34, 0⟩,
  ⟨0xC7, [0x10, 0x00], 2, 0⟩,
  ⟨0x11, [0x00], 0, 120⟩,
  ⟨0x29, [0, 0], 0, 50⟩ ]

/-- The function `panel_kd040hdfid032_send_init_cmds`; `init_cmds` is the table
of the vendor configuration, `none` for a `NULL` pointer. -/
def panel_kd040hdfid032_send_init_cmds (tx_ok : Nat → List Nat → Bool)
    (init_cmds : Option (List lcd_init_cmd_t)) : List (Nat × List Nat) × Bool :=
  match init_cmds with
  | some cmds => send_init_cmds tx_ok cmds
  | none => send_init_cmds tx_ok vendor_specific_init_default

end Kd040hdfid032

/-! ## Arithmetic of C division -/

/-- C division of a non-negative value by a non-negative one is floor division. -/
theorem tdiv_of_nonneg {a b : Int} (ha : 0 ≤ a) (hb : 0 ≤ b) : a.tdiv b = a / b :=
  Int.tdiv_eq_ediv ha hb

/-- C division of a non-positive value rounds toward zero. -/
theorem tdiv_of_nonpos {a b : Int} (ha : a ≤ 0) (hb : 0 ≤ b) :
    a.tdiv b = -((-a) / b) := by
  have h : a = -(-a) := by omega
  rw [h, Int.neg_tdiv, Int.tdiv_eq_ediv (by omega) hb]
  simp

/-! ## Geometry -/

/-- C1: for logical dimensions `w, h ≥ 1` whose scaled image fits the 720 x 720
panel, `calculate_image_offset` leaves `ofs_x = (720 - w * S) / 2` and
`ofs_y = (720 - h * S) / 2` (C division), both non-negative and not clamped;
this holds with and without rotation and for every scaling `S`, in particular
for the compiled `LCD_SCALING = 3`. -/
theorem calculate_image_offset_centres (rot : Bool) (S w h : Int) (s : State)
    (_hw : 1 ≤ w) (_hh : 1 ≤ h) (hws : w * S ≤ 720) (hhs : h * S ≤ 720) :
    (calculate_image_offset ⟨rot, S, 720, 720⟩ (with_dims s w h)).ofs_x
        = (720 - w * S).tdiv 2
      ∧ (calculate_image_offset ⟨rot, S, 720, 720⟩ (with_dims s w h)).ofs_y
        = (720 - h * S).tdiv 2
      ∧ 0 ≤ (calculate_image_offset ⟨rot, S, 720, 720⟩ (with_dims s w h)).ofs_x
      ∧ 0 ≤ (calculate_image_offset ⟨rot, S, 720, 720⟩ (with_dims s w h)).ofs_y := by
  have hx : 0 ≤ (720 - w * S).tdiv 2 := Int.tdiv_nonneg (by omega) (by omega)
  have hy : 0 ≤ (720 - h * S).tdiv 2 := Int.tdiv_nonneg (by omega) (by omega)
  have hx' : ¬ (720 - w * S).tdiv 2 < 0 := by omega
  have hy' : ¬ (720 - h * S).tdiv 2 < 0 := by omega
  cases rot <;>
    simp [calculate_image_offset, calculate_image_offset_raw, with_dims, hx, hy, hx', hy']

/-- Witness of C1 at the 240 x 240 image with scaling 3 in the rotated build. -/
theorem calculate_image_offset_centres_witness :
    (calculate_image_offset ⟨true, 3, 720, 720⟩
        (with_dims (boot (fun _ => 0)) 240 240)).ofs_x = (720 - 240 * 3 : Int).tdiv 2
      ∧ (calculate_image_offset ⟨true, 3, 720, 720⟩
        (with_dims (boot (fun _ => 0)) 240 240)).ofs_y = (720 - 240 * 3 : Int).tdiv 2
      ∧ 0 ≤ (calculate_image_offset ⟨true, 3, 720, 720⟩
        (with_dims (boot (fun _ => 0)) 240 240)).ofs_x
      ∧ 0 ≤ (calculate_image_offset ⟨true, 3, 720, 720⟩
        (with_dims (boot (fun _ => 0)) 240 240)).ofs_y :=
  calculate_image_offset_centres true 3 240 240 (boot (fun _ => 0))
    (by decide) (by decide) (by decide) (by decide)

/-- C2: for the 320 x 240 logical frame on the 720 x 720 panel at scaling 3,
`calculate_image_offset` computes the horizontal centring offset
`(720 - 960) / 2 = -120`, and yields `linebuf_width = 240` and
`ofs_src_start = 40`, in the rotated (compiled) and in the non-rotated branch. -/
theorem calculate_image_offset_320_240 (s : State) :
    (calculate_image_offset_raw compiled
        (with_dims s TEST_BUFFER_WIDTH TEST_BUFFER_HEIGHT)).ofs_x = -120
      ∧ (calculate_image_offset compiled
        (with_dims s TEST_BUFFER_WIDTH TEST_BUFFER_HEIGHT)).ofs_x = -120
      ∧ (calculate_image_offset compiled
        (with_dims s TEST_BUFFER_WIDTH TEST_BUFFER_HEIGHT)).linebuf_width = 240
      ∧ (calculate_image_offset compiled
        (with_dims s TEST_BUFFER_WIDTH TEST_BUFFER_HEIGHT)).ofs_src_start = 40
      ∧ (calculate_image_offset_raw unrotated
        (with_dims s TEST_BUFFER_WIDTH TEST_BUFFER_HEIGHT)).ofs_x = -120
      ∧ (calculate_image_offset unrotated
        (with_dims s TEST_BUFFER_WIDTH TEST_BUFFER_HEIGHT)).linebuf_width = 240
      ∧ (calculate_image_offset unrotated
        (with_dims s TEST_BUFFER_WIDTH TEST_BUFFER_HEIGHT)).ofs_src_start = 40 := by
  have h1 : Int.tdiv 240 2 = 120 := by decide
  have h2 : Int.tdiv 120 3 = 40 := by decide
  have h3 : Int.tdiv 720 3 = 240 := by decide
  simp [calculate_image_offset, calculate_image_offset_raw, with_dims, compiled, unrotated,
    TEST_BUFFER_WIDTH, TEST_BUFFER_HEIGHT, h1, h2, h3]


/-! ## The copy and blanking loops -/

theorem rep_pos (cfg : Config) : 1 ≤ rep cfg := by
  unfold rep; split_ifs <;> omega

theorem copy_body_dst (cfg : Config) (w front line : Int) (c : Copy) :
    (copy_body cfg w front line c).dst = c.dst + rep cfg := by
  unfold copy_body rep emit
  by_cases h3 : 3 ≤ cfg.scaling
  · have h2 : 2 ≤ cfg.scaling := by omega
    simp [h2, h3]; omega
  · by_cases h2 : 2 ≤ cfg.scaling
    · simp [h2, h3]; omega
    · simp [h2, h3]

theorem copy_body_src (cfg : Config) (w front line : Int) (c : Copy) :
    (copy_body cfg w front line c).src = c.src + src_step cfg w := by
  unfold copy_body src_step emit
  by_cases h3 : 3 ≤ cfg.scaling <;> by_cases h2 : 2 ≤ cfg.scaling <;>
    cases hr : cfg.rotation <;> simp [h2, h3] <;> omega

/-- Every access of one iteration is a read of the current source pixel or a
write of one of the `rep cfg` destination pixels. -/
theorem copy_body_trace (cfg : Config) (w front line : Int) (c : Copy) (e : Event)
    (he : e ∈ (copy_body cfg w front line c).trace) :
    e ∈ c.trace ∨ e = Event.read_front c.src
      ∨ ∃ j : Int, 0 ≤ j ∧ j < rep cfg ∧ e = Event.write_line (c.dst + j) := by
  unfold copy_body emit at he
  unfold rep
  by_cases h3 : 3 ≤ cfg.scaling
  · have h2 : 2 ≤ cfg.scaling := by omega
    simp [h2, h3] at he ⊢
    rcases he with h | h | h | h | h | h | h
    · exact Or.inl h
    · exact Or.inr (Or.inl h)
    · exact Or.inr (Or.inr ⟨0, by omega, by omega, by simpa using h⟩)
    · exact Or.inr (Or.inl h)
    · exact Or.inr (Or.inr ⟨1, by omega, by omega, h⟩)
    · exact Or.inr (Or.inl h)
    · exact Or.inr (Or.inr ⟨2, by omega, by omega, by rw [h]; congr 1; omega⟩)
  · by_cases h2 : 2 ≤ cfg.scaling
    · simp [h2, h3] at he ⊢
      rcases he with h | h | h | h | h
      · exact Or.inl h
      · exact Or.inr (Or.inl h)
      · exact Or.inr (Or.inr ⟨0, by omega, by omega, by simpa using h⟩)
      · exact Or.inr (Or.inl h)
      · exact Or.inr (Or.inr ⟨1, by omega, by omega, h⟩)
    · simp [h2, h3] at he ⊢
      rcases he with h | h | h
      · exact Or.inl h
      · exact Or.inr (Or.inl h)
      · exact Or.inr (Or.inr ⟨0, by omega, by omega, by simpa using h⟩)

/-- Every access of the copy loop is the read of iteration `i` at
`src + i * src_step` or one of its writes at `dst + i * rep + j`. -/
theorem copy_loop_trace (cfg : Config) (w front line : Int) (n : Nat) (c : Copy)
    (e : Event) (he : e ∈ (copy_loop cfg w front line n c).trace) :
    e ∈ c.trace ∨ ∃ i : Nat, i < n ∧
      (e = Event.read_front (c.src + i * src_step cfg w)
        ∨ ∃ j : Int, 0 ≤ j ∧ j < rep cfg
            ∧ e = Event.write_line (c.dst + i * rep cfg + j)) := by
  induction n generalizing c with
  | zero => exact Or.inl he
  | succ n ih =>
    rcases ih (copy_body cfg w front line c) he with h | ⟨i, hi, h⟩
    · rcases copy_body_trace cfg w front line c e h with h | h | ⟨j, hj0, hj1, h⟩
      · exact Or.inl h
      · exact Or.inr ⟨0, by omega, Or.inl (by simpa using h)⟩
      · exact Or.inr ⟨0, by omega, Or.inr ⟨j, hj0, hj1, by simpa using h⟩⟩
    · rw [copy_body_src, copy_body_dst] at h
      refine Or.inr ⟨i + 1, by omega, ?_⟩
      rcases h with h | ⟨j, hj0, hj1, h⟩
      · refine Or.inl ?_
        rw [h]; congr 1; push_cast; ring
      · refine Or.inr ⟨j, hj0, hj1, ?_⟩
        rw [h]; congr 1; push_cast; ring

/-- Every access of the blanking loop is a write of pixel `2 * (d + i)` or
`2 * (d + i) + 1` for an iteration `i`. -/
theorem blank_loop_trace (line : Int) (n : Nat) (d : Int) (m : Mem) (tr : List Event)
    (e : Event) (he : e ∈ (blank_loop line n d m tr).2) :
    e ∈ tr ∨ ∃ i : Nat, i < n ∧
      (e = Event.write_line (2 * (d + i)) ∨ e = Event.write_line (2 * (d + i) + 1)) := by
  induction n generalizing d m tr with
  | zero => exact Or.inl he
  | succ n ih =>
    rcases ih _ _ _ he with h | ⟨i, hi, h⟩
    · simp at h
      rcases h with h | h | h
      · exact Or.inl h
      · exact Or.inr ⟨0, by omega, Or.inl (by simpa using h)⟩
      · exact Or.inr ⟨0, by omega, Or.inr (by simpa using h)⟩
    · refine Or.inr ⟨i + 1, by omega, ?_⟩
      rcases h with h | h
      · refine Or.inl ?_
        rw [h]; congr 1; push_cast; ring
      · refine Or.inr ?_
        rw [h]; congr 1; push_cast; ring

/-! ## The refresh callback -/

theorem fb_hw_at_underrun_adjust (s : State) (ctx k : Nat) :
    fb_hw_at (underrun_adjust s ctx) k = fb_hw_at s k := by
  unfold underrun_adjust fb_hw_at
  split_ifs <;> rfl

/-- The callback returns exactly when the line buffer is ready, and then what
`refresh_result` describes. -/
theorem refresh_eq_some_iff (cfg : Config) (s : State) (ctx : Nat) (r : State × List Event) :
    test_notify_refresh_ready cfg s ctx = some r ↔
      ∃ p, fb_hw_at s (ctx &&& 0xff) = some p ∧ p ≠ 0 ∧ r = refresh_result cfg s ctx p := by
  unfold test_notify_refresh_ready refresh_result
  simp only [fb_hw_at_underrun_adjust]
  cases hp : fb_hw_at s (ctx &&& 0xff) with
  | none => simp
  | some p =>
    by_cases h0 : p = 0
    · simp [h0]
    · simp [h0, eq_comm]

theorem line_ready_iff (s : State) (ctx : Nat) :
    line_ready s ctx = true ↔ ∃ p, fb_hw_at s (ctx &&& 0xff) = some p ∧ p ≠ 0 := by
  unfold line_ready
  cases hp : fb_hw_at s (ctx &&& 0xff) with
  | none => simp
  | some p => simp

/-- A callback invocation with a ready line buffer returns. -/
theorem refresh_of_line_ready (cfg : Config) (s : State) (ctx : Nat)
    (h : line_ready s ctx = true) :
    ∃ p, p ≠ 0 ∧ test_notify_refresh_ready cfg s ctx = some (refresh_result cfg s ctx p) := by
  obtain ⟨p, hp, h0⟩ := (line_ready_iff s ctx).1 h
  exact ⟨p, h0, (refresh_eq_some_iff cfg s ctx _).2 ⟨p, hp, h0, rfl⟩⟩

/-- The semaphore operations of the frame boundary are no memory accesses. -/
theorem frame_sync_access_ok (cfg : Config) (s : State) (a b : Int) (e : Event)
    (he : e ∈ (frame_sync cfg s).2) : access_ok a b e = true := by
  unfold frame_sync xSemaphoreTake at he
  simp only at he
  split_ifs at he <;> simp at he <;>
    first
      | (rcases he with h | h <;> simp [h, access_ok])
      | simp [he, access_ok]

/-- The geometry of the compiled build: the destination span of a line lies
inside the 720 pixels of the hardware line, and the number of source pixels per
line does not exceed the logical height. -/
theorem compiled_geometry (s0 : State) (w h : Int) (hh : 1 ≤ h) :
    0 ≤ (calculate_image_offset compiled (with_dims s0 w h)).ofs_y
      ∧ (calculate_image_offset compiled (with_dims s0 w h)).ofs_y
          + 3 * (calculate_image_offset compiled (with_dims s0 w h)).linebuf_width ≤ 720
      ∧ 0 ≤ (calculate_image_offset compiled (with_dims s0 w h)).linebuf_width
      ∧ (calculate_image_offset compiled (with_dims s0 w h)).linebuf_width ≤ h
      ∧ (calculate_image_offset compiled (with_dims s0 w h)).fb_buffer_width = w := by
  have h3 : Int.tdiv 720 3 = 240 := by decide
  have hd : (720 - h * 3).tdiv 2 = (720 - h * 3) / 2
      ∨ (720 - h * 3).tdiv 2 = -((-(720 - h * 3)) / 2) ∧ 720 - h * 3 ≤ 0 := by
    by_cases hfit : 0 ≤ 720 - h * 3
    · exact Or.inl (tdiv_of_nonneg hfit (by omega))
    · exact Or.inr ⟨tdiv_of_nonpos (by omega) (by omega), by omega⟩
  simp only [calculate_image_offset, calculate_image_offset_raw, with_dims, compiled, h3,
    if_true]
  rcases (by omega : h ≤ 240 ∨ 241 ≤ h) with hs | hs <;>
    split_ifs with hneg <;> dsimp only at hneg ⊢ <;> omega

theorem underrun_adjust_geometry (s : State) (ctx : Nat) :
    (underrun_adjust s ctx).fb_buffer_width = s.fb_buffer_width
      ∧ (underrun_adjust s ctx).fb_buffer_height = s.fb_buffer_height
      ∧ (underrun_adjust s ctx).linebuf_width = s.linebuf_width
      ∧ (underrun_adjust s ctx).ofs_x = s.ofs_x
      ∧ (underrun_adjust s ctx).ofs_y = s.ofs_y
      ∧ (underrun_adjust s ctx).ofs_src_start = s.ofs_src_start
      ∧ (underrun_adjust s ctx).ofs_src_line_inc = s.ofs_src_line_inc := by
  unfold underrun_adjust
  split_ifs <;> simp

/-- In the compiled build a line whose geometry keeps the destination span
inside the hardware line is rendered with every read inside the `w * h` pixels
of the front buffer and every write inside the 720 pixels of the line. -/
theorem render_line_access_ok (s : State) (p w h : Int) (hw : 1 ≤ w)
    (hW : s.fb_buffer_width = w) (hl : s.linebuf_width ≤ h)
    (hy0 : 0 ≤ s.ofs_y) (hy : s.ofs_y + 3 * s.linebuf_width ≤ 720)
    (e : Event) (he : e ∈ (render_line compiled s p).2) :
    access_ok (w * h) 720 e = true := by
  unfold render_line at he
  by_cases hr : in_source_range compiled s = true
  · rw [if_pos hr] at he
    simp only [in_source_range, compiled, if_true, Bool.and_eq_true, decide_eq_true_eq] at hr
    simp only [compiled, if_true] at he
    rcases copy_loop_trace _ _ _ _ _ _ e he with h0 | ⟨i, hi, h1 | ⟨j, hj0, hj1, h1⟩⟩
    · simp at h0
    · have hil : (i : Int) < s.linebuf_width := by omega
      have hk : 0 ≤ (s.linebuf_width - 1 - i) * w := mul_nonneg (by omega) (by omega)
      have hk2 : (s.linebuf_width - i) * w ≤ h * w :=
        mul_le_mul_of_nonneg_right (by omega) (by omega)
      subst h1
      simp only [access_ok, src_step, if_true, Bool.and_eq_true, decide_eq_true_eq, hW]
      constructor
      · nlinarith
      · nlinarith
    · have hil : (i : Int) < s.linebuf_width := by omega
      subst h1
      have h3 : rep ⟨true, 3, 720, 720⟩ = 3 := by decide
      rw [h3] at hj1 ⊢
      simp only [access_ok, Bool.and_eq_true, decide_eq_true_eq]
      omega
  · rw [if_neg hr] at he
    have h360 : (Int.tdiv compiled.h_res 2).toNat = 360 := by decide
    rw [h360] at he
    rcases blank_loop_trace _ _ _ _ _ e he with h0 | ⟨i, hi, h1 | h1⟩
    · simp at h0
    · subst h1
      simp only [access_ok, Bool.and_eq_true, decide_eq_true_eq]
      omega
    · subst h1
      simp only [access_ok, Bool.and_eq_true, decide_eq_true_eq]
      omega

/-- C3: in the compiled configuration, for logical dimensions `w, h ≥ 1`, after
`calculate_image_offset` and for every cursor value `ofs_src`, every line counter
value and every context word (so every underrun flag) that selects a ready line
buffer, one invocation of `test_notify_refresh_ready` returns, reads the front
buffer only at indices in `[0, w * h)` and writes the hardware line only at
indices in `[0, 720)`. -/
theorem refresh_accesses_in_bounds (s0 : State) (w h c n : Int) (ctx : Nat)
    (hw : 1 ≤ w) (hh : 1 ≤ h) (hline : line_ready s0 ctx = true) :
    ∃ r, test_notify_refresh_ready compiled
          (with_cursor (calculate_image_offset compiled (with_dims s0 w h)) c n) ctx = some r
      ∧ ∀ e ∈ r.2, access_ok (w * h) 720 e = true := by
  have hline' : line_ready
      (with_cursor (calculate_image_offset compiled (with_dims s0 w h)) c n) ctx = true := by
    rw [← hline]
    simp [line_ready, fb_hw_at, with_cursor, calculate_image_offset,
      calculate_image_offset_raw, with_dims, compiled]
    split_ifs <;> rfl
  obtain ⟨p, _, hp⟩ := refresh_of_line_ready compiled _ ctx hline'
  refine ⟨_, hp, ?_⟩
  intro e he
  obtain ⟨g0, g1, _, g3, g4⟩ := compiled_geometry s0 w h hh
  obtain ⟨u1, _, u3, _, u5, _, _⟩ := underrun_adjust_geometry
    (with_cursor (calculate_image_offset compiled (with_dims s0 w h)) c n) ctx
  simp only [refresh_result, List.mem_append] at he
  rcases he with he | he
  · refine render_line_access_ok _ p w h hw ?_ ?_ ?_ ?_ e he
    · rw [u1]; exact g4
    · rw [u3]; exact g3
    · rw [u5]; exact g0
    · rw [u5, u3]; exact g1
  · exact frame_sync_access_ok _ _ _ _ e he

/-- Witness of C3: the 320 x 240 frame with the cursor at its start, line
buffer 0 at address 1000, no underrun. -/
theorem refresh_accesses_in_bounds_witness :
    ∃ r, test_notify_refresh_ready compiled
          (with_cursor (calculate_image_offset compiled
            (with_dims { boot (fun _ => 0) with fb_hw0 := 1000 } 320 240)) 40 2) 0 = some r
      ∧ ∀ e ∈ r.2, access_ok (320 * 240) 720 e = true :=
  refresh_accesses_in_bounds { boot (fun _ => 0) with fb_hw0 := 1000 } 320 240 40 2 0
    (by decide) (by decide) (by decide)

/-- The accesses of rendering a line are reads of the front buffer and writes
of the line: no semaphore is touched while rendering. -/
theorem render_line_no_signal (cfg : Config) (s : State) (p : Int) (e : Event)
    (he : e ∈ (render_line cfg s p).2) :
    e ≠ Event.give_vsync ∧ ∀ ok, e ≠ Event.take_fb_ready ok := by
  unfold render_line at he
  by_cases hr : in_source_range cfg s = true
  · rw [if_pos hr] at he
    rcases copy_loop_trace _ _ _ _ _ _ e he with h0 | ⟨i, _, h1 | ⟨j, _, _, h1⟩⟩
    · simp at h0
    · subst h1; simp
    · subst h1; simp
  · rw [if_neg hr] at he
    rcases blank_loop_trace _ _ _ _ _ e he with h0 | ⟨i, _, h1 | h1⟩
    · simp at h0
    · subst h1; simp
    · subst h1; simp

theorem underrun_adjust_signals (s : State) (ctx : Nat) :
    (underrun_adjust s ctx).vsync_event = s.vsync_event
      ∧ (underrun_adjust s ctx).fb_ready = s.fb_ready
      ∧ (underrun_adjust s ctx).prefer_vsync_over_fps = s.prefer_vsync_over_fps
      ∧ (underrun_adjust s ctx).m_fb_front = s.m_fb_front := by
  unfold underrun_adjust
  split_ifs <;> simp

/-- With the underrun bits set the adjustment replaces the cursor by
`(ofs_src_start + ofs_src_line_inc, 1)`, whatever it was. -/
theorem underrun_adjust_set (s : State) (ctx : Nat) (hu : ctx &&& 0xff00 ≠ 0) :
    underrun_adjust s ctx = with_cursor s (s.ofs_src_start + s.ofs_src_line_inc) 1 := by
  unfold underrun_adjust with_cursor
  rw [if_pos hu]

/-- C4: for every prior cursor state, an invocation whose context word has the
underrun bits set renders its line from the cursor
`ofs_src = ofs_src_start + ofs_src_line_inc`, `line_block_cnt = 1`, and, when
`TEST_LCD_V_RES / LCD_SCALING > 2`, ends with `line_block_cnt = 2` and
`ofs_src = ofs_src_start + 2 * ofs_src_line_inc`. -/
theorem refresh_underrun_recovery (cfg : Config) (s : State) (ctx : Nat)
    (hu : ctx &&& 0xff00 ≠ 0) (hline : line_ready s ctx = true)
    (hres : 2 < cfg.v_res.tdiv cfg.scaling) :
    ∃ p r, fb_hw_at s (ctx &&& 0xff) = some p
      ∧ test_notify_refresh_ready cfg s ctx = some r
      ∧ r.1.mem
          = (render_line cfg
              (with_cursor s (s.ofs_src_start + s.ofs_src_line_inc) 1) p).1
      ∧ r.2
          = (render_line cfg
              (with_cursor s (s.ofs_src_start + s.ofs_src_line_inc) 1) p).2
      ∧ r.1.line_block_cnt = 2
      ∧ r.1.ofs_src = s.ofs_src_start + 2 * s.ofs_src_line_inc := by
  obtain ⟨p, hp, hp0⟩ := (line_ready_iff s ctx).1 hline
  refine ⟨p, _, hp, (refresh_eq_some_iff cfg s ctx _).2 ⟨p, hp, hp0, rfl⟩, ?_⟩
  have hne : ¬ ((1 : Int) + 1 = cfg.v_res.tdiv cfg.scaling) := by omega
  simp only [refresh_result, underrun_adjust_set s ctx hu, frame_sync, with_cursor, hne,
    if_false, List.append_nil, true_and]
  constructor
  · trivial
  · omega

/-- Witness of C4: underrun reported for line buffer 0 in the compiled build,
from a cursor in the middle of a frame. -/
theorem refresh_underrun_recovery_witness :
    ∃ p r, fb_hw_at (with_cursor (calculate_image_offset compiled
            (with_dims { boot (fun _ => 0) with fb_hw0 := 1000 } 320 240)) 77 100)
          (0x100 &&& 0xff) = some p
      ∧ test_notify_refresh_ready compiled (with_cursor (calculate_image_offset compiled
            (with_dims { boot (fun _ => 0) with fb_hw0 := 1000 } 320 240)) 77 100) 0x100
          = some r
      ∧ r.1.mem = (render_line compiled (with_cursor (with_cursor
            (calculate_image_offset compiled
              (with_dims { boot (fun _ => 0) with fb_hw0 := 1000 } 320 240)) 77 100)
            (40 + 1) 1) p).1
      ∧ r.2 = (render_line compiled (with_cursor (with_cursor
            (calculate_image_offset compiled
              (with_dims { boot (fun _ => 0) with fb_hw0 := 1000 } 320 240)) 77 100)
            (40 + 1) 1) p).2
      ∧ r.1.line_block_cnt = 2
      ∧ r.1.ofs_src = 40 + 2 * 1 :=
  refresh_underrun_recovery compiled (with_cursor (calculate_image_offset compiled
      (with_dims { boot (fun _ => 0) with fb_hw0 := 1000 } 320 240)) 77 100) 0x100
    (by decide) (by decide) (by decide)

/-! ## Frame boundary and pacing -/

/-- The state after a callback invocation, field by field, when the frame
boundary is not reached: the cursor advances and no semaphore is touched. -/
theorem refresh_result_inner (cfg : Config) (s : State) (ctx : Nat) (p : Int)
    (hb : at_boundary cfg s ctx = false) :
    (refresh_result cfg s ctx p).1.vsync_event = s.vsync_event
      ∧ (refresh_result cfg s ctx p).1.fb_ready = s.fb_ready
      ∧ (refresh_result cfg s ctx p).1.line_block_cnt
          = (underrun_adjust s ctx).line_block_cnt + 1
      ∧ (refresh_result cfg s ctx p).1.ofs_src
          = (underrun_adjust s ctx).ofs_src + s.ofs_src_line_inc
      ∧ (refresh_result cfg s ctx p).2 = (render_line cfg (underrun_adjust s ctx) p).2 := by
  obtain ⟨u1, u2, _, _⟩ := underrun_adjust_signals s ctx
  obtain ⟨_, _, _, _, _, _, u7⟩ := underrun_adjust_geometry s ctx
  simp only [at_boundary, decide_eq_false_iff_not] at hb
  simp [refresh_result, frame_sync, hb, u1, u2, u7]

/-- The state after a callback invocation, field by field, when the frame
boundary is reached. -/
theorem refresh_result_boundary (cfg : Config) (s : State) (ctx : Nat) (p : Int)
    (hb : at_boundary cfg s ctx = true) :
    (refresh_result cfg s ctx p).1.line_block_cnt = 0
      ∧ (refresh_result cfg s ctx p).1.ofs_src = s.ofs_src_start
      ∧ (refresh_result cfg s ctx p).1.vsync_event
          = (if s.prefer_vsync_over_fps ≠ 0 ∧ s.fb_ready = false then s.vsync_event else true)
      ∧ (refresh_result cfg s ctx p).1.fb_ready
          = (if s.prefer_vsync_over_fps ≠ 0 then false else s.fb_ready)
      ∧ (refresh_result cfg s ctx p).2
          = (render_line cfg (underrun_adjust s ctx) p).2
            ++ (if s.prefer_vsync_over_fps ≠ 0 then
                  (if s.fb_ready = true then [Event.take_fb_ready true, Event.give_vsync]
                    else [Event.take_fb_ready false])
                else [Event.give_vsync]) := by
  obtain ⟨u1, u2, u3, _⟩ := underrun_adjust_signals s ctx
  obtain ⟨_, _, _, _, _, u6, _⟩ := underrun_adjust_geometry s ctx
  simp only [at_boundary, decide_eq_true_eq] at hb
  by_cases hp : s.prefer_vsync_over_fps = 0
  · simp [refresh_result, frame_sync, hb, u1, u2, u3, u6, hp, xSemaphoreGive]
  · cases hf : s.fb_ready <;>
      simp [refresh_result, frame_sync, hb, u1, u2, u3, u6, hp, hf, xSemaphoreGive,
        xSemaphoreTake]

/-- C5: with the two binary semaphores as booleans, in an invocation that reaches
the frame boundary `vsync_event` is given if and only if
`prefer_vsync_over_fps = 0` or `fb_ready` was available, and `fb_ready` is taken
if and only if `prefer_vsync_over_fps != 0` and it was available; when
`prefer_vsync_over_fps != 0` and `fb_ready` was unavailable neither signal
changes; in an invocation that does not reach the boundary neither signal
changes and no semaphore call is made. -/
theorem refresh_signals (cfg : Config) (s : State) (ctx : Nat)
    (hline : line_ready s ctx = true) :
    ∃ r, test_notify_refresh_ready cfg s ctx = some r
      ∧ (at_boundary cfg s ctx = true →
          (Event.give_vsync ∈ r.2 ↔ (s.prefer_vsync_over_fps = 0 ∨ s.fb_ready = true))
          ∧ (s.prefer_vsync_over_fps = 0 ∨ s.fb_ready = true → r.1.vsync_event = true)
          ∧ (Event.take_fb_ready true ∈ r.2
              ↔ (s.prefer_vsync_over_fps ≠ 0 ∧ s.fb_ready = true))
          ∧ (s.prefer_vsync_over_fps ≠ 0 ∧ s.fb_ready = true → r.1.fb_ready = false)
          ∧ (s.prefer_vsync_over_fps = 0 → r.1.fb_ready = s.fb_ready)
          ∧ (s.prefer_vsync_over_fps ≠ 0 ∧ s.fb_ready = false →
              r.1.vsync_event = s.vsync_event ∧ r.1.fb_ready = s.fb_ready))
      ∧ (at_boundary cfg s ctx = false →
          r.1.vsync_event = s.vsync_event ∧ r.1.fb_ready = s.fb_ready
          ∧ Event.give_vsync ∉ r.2 ∧ ∀ ok, Event.take_fb_ready ok ∉ r.2) := by
  obtain ⟨p, _, hp⟩ := refresh_of_line_ready cfg s ctx hline
  refine ⟨_, hp, ?_, ?_⟩
  · intro hb
    obtain ⟨_, _, hv, hf, htr⟩ := refresh_result_boundary cfg s ctx p hb
    have hng : Event.give_vsync ∉ (render_line cfg (underrun_adjust s ctx) p).2 :=
      fun h => (render_line_no_signal cfg _ p _ h).1 rfl
    have hnt : Event.take_fb_ready true ∉ (render_line cfg (underrun_adjust s ctx) p).2 :=
      fun h => (render_line_no_signal cfg _ p _ h).2 true rfl
    rw [hv, hf, htr]
    by_cases h0 : s.prefer_vsync_over_fps = 0
    · simp [h0, hng, hnt]
    · cases hr : s.fb_ready <;> simp [h0, hr, hng, hnt]
  · intro hb
    obtain ⟨hv, hf, _, _, htr⟩ := refresh_result_inner cfg s ctx p hb
    refine ⟨hv, hf, ?_, ?_⟩
    · rw [htr]
      exact fun h => (render_line_no_signal cfg _ p _ h).1 rfl
    · intro ok
      rw [htr]
      exact fun h => (render_line_no_signal cfg _ p _ h).2 ok rfl

/-- Witness of C5: tear-free mode, `fb_ready` available, the last line of a
frame. -/
theorem refresh_signals_witness :
    ∃ r, test_notify_refresh_ready compiled (with_cursor (steady 1 false true) 279 239) 0
          = some r
      ∧ (at_boundary compiled (with_cursor (steady 1 false true) 279 239) 0 = true →
          (Event.give_vsync ∈ r.2 ↔
            ((with_cursor (steady 1 false true) 279 239).prefer_vsync_over_fps = 0
              ∨ (with_cursor (steady 1 false true) 279 239).fb_ready = true))
          ∧ ((with_cursor (steady 1 false true) 279 239).prefer_vsync_over_fps = 0
              ∨ (with_cursor (steady 1 false true) 279 239).fb_ready = true →
              r.1.vsync_event = true)
          ∧ (Event.take_fb_ready true ∈ r.2
              ↔ ((with_cursor (steady 1 false true) 279 239).prefer_vsync_over_fps ≠ 0
                ∧ (with_cursor (steady 1 false true) 279 239).fb_ready = true))
          ∧ ((with_cursor (steady 1 false true) 279 239).prefer_vsync_over_fps ≠ 0
              ∧ (with_cursor (steady 1 false true) 279 239).fb_ready = true →
              r.1.fb_ready = false)
          ∧ ((with_cursor (steady 1 false true) 279 239).prefer_vsync_over_fps = 0 →
              r.1.fb_ready = (with_cursor (steady 1 false true) 279 239).fb_ready)
          ∧ ((with_cursor (steady 1 false true) 279 239).prefer_vsync_over_fps ≠ 0
              ∧ (with_cursor (steady 1 false true) 279 239).fb_ready = false →
              r.1.vsync_event = (with_cursor (steady 1 false true) 279 239).vsync_event
                ∧ r.1.fb_ready = (with_cursor (steady 1 false true) 279 239).fb_ready))
      ∧ (at_boundary compiled (with_cursor (steady 1 false true) 279 239) 0 = false →
          r.1.vsync_event = (with_cursor (steady 1 false true) 279 239).vsync_event
          ∧ r.1.fb_ready = (with_cursor (steady 1 false true) 279 239).fb_ready
          ∧ Event.give_vsync ∉ r.2 ∧ ∀ ok, Event.take_fb_ready ok ∉ r.2) :=
  refresh_signals compiled (with_cursor (steady 1 false true) 279 239) 0 (by decide)

/-- The callback leaves the frame buffer pointers, the pacing mode and the
geometry as they are. -/
theorem refresh_result_frame (cfg : Config) (s : State) (ctx : Nat) (p : Int) :
    (refresh_result cfg s ctx p).1.m_fb_front = s.m_fb_front
      ∧ (refresh_result cfg s ctx p).1.prefer_vsync_over_fps = s.prefer_vsync_over_fps
      ∧ (refresh_result cfg s ctx p).1.fb0 = s.fb0
      ∧ (refresh_result cfg s ctx p).1.fb1 = s.fb1
      ∧ (refresh_result cfg s ctx p).1.fb_back = s.fb_back
      ∧ (refresh_result cfg s ctx p).1.fb_hw0 = s.fb_hw0
      ∧ (refresh_result cfg s ctx p).1.fb_hw1 = s.fb_hw1 := by
  unfold refresh_result frame_sync underrun_adjust xSemaphoreTake
  simp only
  split_ifs <;> simp

theorem run_refresh_cons (cfg : Config) (s : State) (c : Nat) (cs : List Nat)
    (r : State × List Event) :
    run_refresh cfg s (c :: cs) = some r ↔
      ∃ r1 r2, test_notify_refresh_ready cfg s c = some r1
        ∧ run_refresh cfg r1.1 cs = some r2 ∧ r = (r2.1, r1.2 ++ r2.2) := by
  simp only [run_refresh]
  cases h1 : test_notify_refresh_ready cfg s c with
  | none => simp
  | some r1 =>
    cases h2 : run_refresh cfg r1.1 cs with
    | none => simp [h2]
    | some r2 =>
      simp only [h2, Option.some.injEq]
      constructor
      · intro h; exact ⟨r1, r2, rfl, h2, h.symm⟩
      · rintro ⟨a, b, ha, hb, h⟩
        subst ha
        rw [h2] at hb
        cases hb
        exact h.symm

/-- One invocation in tear-free mode: every give of `vsync_event` consumes an
available `fb_ready`, and the callback never makes `fb_ready` available. -/
theorem refresh_step_tear_free (cfg : Config) (s : State) (ctx : Nat)
    (r : State × List Event) (hp : s.prefer_vsync_over_fps ≠ 0)
    (h : test_notify_refresh_ready cfg s ctx = some r) :
    r.2.count Event.give_vsync + r.1.fb_ready.toNat = s.fb_ready.toNat := by
  obtain ⟨p, _, _, rfl⟩ := (refresh_eq_some_iff cfg s ctx r).1 h
  have hng : List.count Event.give_vsync (render_line cfg (underrun_adjust s ctx) p).2 = 0 :=
    List.count_eq_zero.2 (fun hm => (render_line_no_signal cfg _ p _ hm).1 rfl)
  cases hb : at_boundary cfg s ctx
  · obtain ⟨_, hf, _, _, htr⟩ := refresh_result_inner cfg s ctx p hb
    rw [htr, hf, hng]; simp
  · obtain ⟨_, _, _, hf, htr⟩ := refresh_result_boundary cfg s ctx p hb
    rw [htr, hf, List.count_append, hng]
    cases hr : s.fb_ready <;> simp [hp]

/-- A run of invocations in tear-free mode gives `vsync_event` exactly as often
as it consumes `fb_ready`, and never changes `m_fb_front` or the mode. -/
theorem run_refresh_tear_free (cfg : Config) (ctxs : List Nat) (s : State)
    (r : State × List Event) (hp : s.prefer_vsync_over_fps ≠ 0)
    (h : run_refresh cfg s ctxs = some r) :
    r.2.count Event.give_vsync + r.1.fb_ready.toNat = s.fb_ready.toNat
      ∧ r.1.m_fb_front = s.m_fb_front := by
  induction ctxs generalizing s r with
  | nil =>
    simp only [run_refresh, Option.some.injEq] at h
    subst h; simp
  | cons c cs ih =>
    obtain ⟨r1, r2, h1, h2, rfl⟩ := (run_refresh_cons cfg s c cs r).1 h
    have hstep := refresh_step_tear_free cfg s c r1 hp h1
    obtain ⟨p, _, _, hr1⟩ := (refresh_eq_some_iff cfg s c r1).1 h1
    obtain ⟨hfront, hpref, _⟩ := refresh_result_frame cfg s c p
    rw [← hr1] at hfront hpref
    obtain ⟨hc, hm⟩ := ih r1.1 r2 (by rw [hpref]; exact hp) h2
    refine ⟨?_, by rw [hm, hfront]⟩
    simp only [List.count_append]
    omega

/-! ## The producer side: `lcd_send_buffer` -/

/-- When `vsync_event` is available `lcd_send_buffer` returns, having copied the
source into the old back buffer, taken `vsync_event`, swapped the roles and
given `fb_ready`. -/
theorem lcd_send_buffer_of_vsync (s : State) (buf : Int) (len : Nat)
    (hv : s.vsync_event = true) :
    ∃ s1, lcd_send_buffer s buf len = some s1
      ∧ s1.vsync_event = false ∧ s1.fb_ready = true
      ∧ s1.prefer_vsync_over_fps = s.prefer_vsync_over_fps
      ∧ s1.m_fb_front = (if s.fb_back = s.fb0 then s.fb0 else s.fb1)
      ∧ s1.fb_back = (if s.fb_back = s.fb0 then s.fb1 else s.fb0)
      ∧ s1.mem = send_loop len s.fb_back buf s.mem
      ∧ s1.fb0 = s.fb0 ∧ s1.fb1 = s.fb1 := by
  unfold lcd_send_buffer lcd_wait_vsync xSemaphoreTake
  simp only [hv, if_true]
  refine ⟨_, rfl, ?_⟩
  unfold lcd_set_fb_ready set_fb_front xSemaphoreGive
  split_ifs <;> simp

/-- When `vsync_event` is not available `lcd_send_buffer` stays in
`lcd_wait_vsync`. -/
theorem lcd_send_buffer_blocked (s : State) (buf : Int) (len : Nat)
    (hv : s.vsync_event = false) : lcd_send_buffer s buf len = none := by
  unfold lcd_send_buffer lcd_wait_vsync xSemaphoreTake
  simp [hv]

/-- The state left by `test_init_lcd`: `vsync_event` available, `fb_ready` not,
the pacing mode as configured. -/
theorem test_init_lcd_signals (cfg : Config) (s : State) (lc : lcd_config_t)
    (hw0 hw1 : Int) :
    (test_init_lcd cfg s lc hw0 hw1).vsync_event = true
      ∧ (test_init_lcd cfg s lc hw0 hw1).fb_ready = false
      ∧ (test_init_lcd cfg s lc hw0 hw1).prefer_vsync_over_fps = lc.prefer_vsync_over_fps := by
  unfold test_init_lcd calculate_image_offset calculate_image_offset_raw xSemaphoreGive
    xSemaphoreTake
  simp only
  split_ifs <;> simp

/-- C6: in tear-free mode, from the signal state left by `test_init_lcd`
(`vsync_event` available, `fb_ready` not) and after exactly one
`lcd_send_buffer`, every finite sequence of callback invocations, with
arbitrary context words, gives `vsync_event` at most once in total and leaves
`m_fb_front` unchanged. -/
theorem tear_free_single_vsync (cfg : Config) (s0 : State) (lc : lcd_config_t)
    (hw0 hw1 buf : Int) (len : Nat) (hp : lc.prefer_vsync_over_fps ≠ 0) :
    (test_init_lcd cfg s0 lc hw0 hw1).vsync_event = true
      ∧ (test_init_lcd cfg s0 lc hw0 hw1).fb_ready = false
      ∧ ∃ s1, lcd_send_buffer (test_init_lcd cfg s0 lc hw0 hw1) buf len = some s1
        ∧ ∀ ctxs r, run_refresh cfg s1 ctxs = some r →
            r.2.count Event.give_vsync ≤ 1 ∧ r.1.m_fb_front = s1.m_fb_front := by
  obtain ⟨iv, ifr, ip⟩ := test_init_lcd_signals cfg s0 lc hw0 hw1
  obtain ⟨s1, h1, _, hf, hpref, _⟩ := lcd_send_buffer_of_vsync _ buf len iv
  refine ⟨iv, ifr, s1, h1, ?_⟩
  intro ctxs r hr
  have hp1 : s1.prefer_vsync_over_fps ≠ 0 := by rw [hpref, ip]; exact hp
  obtain ⟨hc, hm⟩ := run_refresh_tear_free cfg ctxs s1 r hp1 hr
  rw [hf] at hc
  refine ⟨?_, hm⟩
  simp only [Bool.toNat_true] at hc
  omega

/-- Witness of C6: the compiled build, initialised for 320 x 240 in tear-free
mode. -/
theorem tear_free_single_vsync_witness :
    (test_init_lcd compiled (boot (fun _ => 0)) ⟨320, 240, 1⟩ 1000 2000).vsync_event = true
      ∧ (test_init_lcd compiled (boot (fun _ => 0)) ⟨320, 240, 1⟩ 1000 2000).fb_ready = false
      ∧ ∃ s1, lcd_send_buffer
            (test_init_lcd compiled (boot (fun _ => 0)) ⟨320, 240, 1⟩ 1000 2000) 300000 4
            = some s1
        ∧ ∀ ctxs r, run_refresh compiled s1 ctxs = some r →
            r.2.count Event.give_vsync ≤ 1 ∧ r.1.m_fb_front = s1.m_fb_front :=
  tear_free_single_vsync compiled (boot (fun _ => 0)) ⟨320, 240, 1⟩ 1000 2000 300000 4
    (by decide)

/-- A callback invocation that makes `vsync_event` available reaches a frame
boundary. -/
theorem refresh_gives_only_at_boundary (cfg : Config) (s : State) (ctx : Nat)
    (r : State × List Event) (hv : s.vsync_event = false)
    (h : test_notify_refresh_ready cfg s ctx = some r) (hr : r.1.vsync_event = true) :
    at_boundary cfg s ctx = true := by
  obtain ⟨p, _, _, rfl⟩ := (refresh_eq_some_iff cfg s ctx r).1 h
  cases hb : at_boundary cfg s ctx
  · obtain ⟨hv', _⟩ := refresh_result_inner cfg s ctx p hb
    rw [hv', hv] at hr
    exact absurd hr (by decide)
  · rfl

/-- A run that reaches no frame boundary leaves both signals as they are. -/
theorem run_refresh_no_boundary (cfg : Config) (ctxs : List Nat) (s : State)
    (r : State × List Event) (h : run_refresh cfg s ctxs = some r)
    (hn : no_boundary cfg s ctxs = true) :
    r.1.vsync_event = s.vsync_event ∧ r.1.fb_ready = s.fb_ready := by
  induction ctxs generalizing s r with
  | nil =>
    simp only [run_refresh, Option.some.injEq] at h
    subst h; simp
  | cons c cs ih =>
    obtain ⟨r1, r2, h1, h2, rfl⟩ := (run_refresh_cons cfg s c cs r).1 h
    simp only [no_boundary, h1, Bool.and_eq_true, Bool.not_eq_true'] at hn
    obtain ⟨p, _, _, hr1⟩ := (refresh_eq_some_iff cfg s c r1).1 h1
    obtain ⟨hv, hf, _⟩ := refresh_result_inner cfg s c p hn.1
    rw [← hr1] at hv hf
    obtain ⟨hv2, hf2⟩ := ih r1.1 r2 h2 hn.2
    exact ⟨by rw [hv2, hv], by rw [hf2, hf]⟩

/-- C7: in both pacing modes, with `lcd_send_buffer` and the callback as atomic
steps: right after `lcd_send_buffer` completes `vsync_event` is unavailable; a
callback invocation makes it available only by reaching a frame boundary; and
so after any run of invocations none of which reached a frame boundary a second
`lcd_send_buffer` does not get past `lcd_wait_vsync`. -/
theorem handoff_waits_for_boundary (cfg : Config) (s : State) (buf : Int) (len : Nat)
    (hv : s.vsync_event = true) :
    ∃ s1, lcd_send_buffer s buf len = some s1
      ∧ s1.vsync_event = false
      ∧ (∀ (t : State) (ctx : Nat) (r : State × List Event), t.vsync_event = false →
          test_notify_refresh_ready cfg t ctx = some r → r.1.vsync_event = true →
          at_boundary cfg t ctx = true)
      ∧ (∀ (ctxs : List Nat) (r : State × List Event), run_refresh cfg s1 ctxs = some r →
          no_boundary cfg s1 ctxs = true →
          r.1.vsync_event = false
            ∧ ∀ (buf2 : Int) (len2 : Nat), lcd_send_buffer r.1 buf2 len2 = none) := by
  obtain ⟨s1, h1, hv1, _⟩ := lcd_send_buffer_of_vsync s buf len hv
  refine ⟨s1, h1, hv1, ?_, ?_⟩
  · intro t ctx r ht h hr
    exact refresh_gives_only_at_boundary cfg t ctx r ht h hr
  · intro ctxs r hr hn
    obtain ⟨hv2, _⟩ := run_refresh_no_boundary cfg ctxs s1 r hr hn
    have hv3 : r.1.vsync_event = false := by rw [hv2, hv1]
    exact ⟨hv3, fun buf2 len2 => lcd_send_buffer_blocked r.1 buf2 len2 hv3⟩

/-- Witness of C7: the throughput mode of the compiled build with `vsync_event`
available. -/
theorem handoff_waits_for_boundary_witness :
    ∃ s1, lcd_send_buffer (steady 0 true false) 300000 4 = some s1
      ∧ s1.vsync_event = false
      ∧ (∀ (t : State) (ctx : Nat) (r : State × List Event), t.vsync_event = false →
          test_notify_refresh_ready compiled t ctx = some r → r.1.vsync_event = true →
          at_boundary compiled t ctx = true)
      ∧ (∀ (ctxs : List Nat) (r : State × List Event),
          run_refresh compiled s1 ctxs = some r →
          no_boundary compiled s1 ctxs = true →
          r.1.vsync_event = false
            ∧ ∀ (buf2 : Int) (len2 : Nat), lcd_send_buffer r.1 buf2 len2 = none) :=
  handoff_waits_for_boundary compiled (steady 0 true false) 300000 4 (by decide)

/-- The copy loop of `lcd_send_buffer` writes only inside the destination. -/
theorem send_loop_outside (n : Nat) (dst src : Int) (m : Mem) (a : Int)
    (ha : a < dst ∨ dst + n ≤ a) : send_loop n dst src m a = m a := by
  induction n generalizing dst src m with
  | zero => rfl
  | succ n ih =>
    simp only [send_loop]
    rw [ih (dst + 1) (src + 1) _ (by push_cast at ha; omega)]
    unfold store
    rw [if_neg (by push_cast at ha; omega)]

/-- The copy loop of `lcd_send_buffer` copies a source that does not overlap
the destination. -/
theorem send_loop_copies (n : Nat) (dst src : Int) (m : Mem)
    (hsep : src + n ≤ dst ∨ dst + n ≤ src) (i : Nat) (hi : i < n) :
    send_loop n dst src m (dst + i) = m (src + i) := by
  induction n generalizing dst src m i with
  | zero => omega
  | succ n ih =>
    simp only [send_loop]
    cases i with
    | zero =>
      rw [send_loop_outside n (dst + 1) (src + 1) _ _ (by push_cast; omega)]
      simp [store]
    | succ k =>
      have h := ih (dst + 1) (src + 1) (store m dst (m src))
        (by push_cast at hsep; omega) k (by omega)
      have e1 : dst + ((k + 1 : Nat) : Int) = dst + 1 + (k : Int) := by push_cast; ring
      have e2 : src + ((k + 1 : Nat) : Int) = src + 1 + (k : Int) := by push_cast; ring
      rw [e1, e2, h]
      unfold store
      rw [if_neg (by push_cast at hsep; omega)]

/-- C8: in a state in which `fb[0] != fb[1]`, `fb_back` is one of them and
`m_fb_front` the other, for a source buffer that does not overlap `fb_back` and
a length within the frame capacity, whenever `lcd_send_buffer(buffer, length)`
returns it ends with `m_fb_front` the old `fb_back`, `fb_back` the old
`m_fb_front`, the first `length` pixels of the new front buffer equal to the
first `length` pixels of `buffer`, and `fb_ready` available; and it returns
whenever `vsync_event` is available. -/
theorem lcd_send_buffer_flips (s : State) (buf : Int) (len : Nat)
    (hd : s.fb0 ≠ s.fb1)
    (hb : (s.fb_back = s.fb0 ∧ s.m_fb_front = s.fb1)
      ∨ (s.fb_back = s.fb1 ∧ s.m_fb_front = s.fb0))
    (hsep : buf + len ≤ s.fb_back ∨ s.fb_back + len ≤ buf)
    (_hcap : (len : Int) ≤ 320 * 240) :
    (∀ s1, lcd_send_buffer s buf len = some s1 →
        s1.m_fb_front = s.fb_back ∧ s1.fb_back = s.m_fb_front
        ∧ (∀ i : Nat, i < len → s1.mem (s1.m_fb_front + i) = s.mem (buf + i))
        ∧ (∀ i : Nat, i < len → s1.mem (buf + i) = s.mem (buf + i))
        ∧ s1.fb_ready = true)
      ∧ (s.vsync_event = true → ∃ s1, lcd_send_buffer s buf len = some s1) := by
  constructor
  · intro s1 h1
    cases hv : s.vsync_event with
    | false => rw [lcd_send_buffer_blocked s buf len hv] at h1; cases h1
    | true =>
      obtain ⟨s2, h2, _, hf, _, hfront, hback, hmem, _, _⟩ :=
        lcd_send_buffer_of_vsync s buf len hv
      rw [h2] at h1
      obtain rfl : s2 = s1 := Option.some.inj h1
      have e1 : s2.m_fb_front = s.fb_back := by
        rw [hfront]; rcases hb with ⟨h, _⟩ | ⟨h, _⟩
        · rw [if_pos h, h]
        · rw [if_neg (by rw [h]; exact fun e => hd e.symm), h]
      have e2 : s2.fb_back = s.m_fb_front := by
        rw [hback]; rcases hb with ⟨h, h'⟩ | ⟨h, h'⟩
        · rw [if_pos h, h']
        · rw [if_neg (by rw [h]; exact fun e => hd e.symm), h']
      refine ⟨e1, e2, ?_, ?_, hf⟩
      · intro i hi
        rw [e1, hmem]
        exact send_loop_copies len s.fb_back buf s.mem hsep i hi
      · intro i hi
        rw [hmem]
        exact send_loop_outside len s.fb_back buf s.mem _ (by omega)
  · intro hv
    obtain ⟨s1, h1, _⟩ := lcd_send_buffer_of_vsync s buf len hv
    exact ⟨s1, h1⟩

/-- Witness of C8: a full frame sent from a buffer at 300000 while the back
buffer is at 100000 and the front buffer at 200000. -/
theorem lcd_send_buffer_flips_witness :
    (∀ s1, lcd_send_buffer (steady 0 true false) 300000 76800 = some s1 →
        s1.m_fb_front = (steady 0 true false).fb_back
        ∧ s1.fb_back = (steady 0 true false).m_fb_front
        ∧ (∀ i : Nat, i < 76800 →
            s1.mem (s1.m_fb_front + i) = (steady 0 true false).mem (300000 + i))
        ∧ (∀ i : Nat, i < 76800 →
            s1.mem (300000 + i) = (steady 0 true false).mem (300000 + i))
        ∧ s1.fb_ready = true)
      ∧ ((steady 0 true false).vsync_event = true →
          ∃ s1, lcd_send_buffer (steady 0 true false) 300000 76800 = some s1) :=
  lcd_send_buffer_flips (steady 0 true false) 300000 76800
    (by decide) (by decide) (by decide) (by decide)

/-! ## The producer side: `lcd_get_buffer` and `lcd_init` -/

/-- C9, as the code has it: in every state `lcd_get_buffer` returns
`m_fb_front`, the buffer currently marked front; so whenever front and back
differ it does not return `fb_back`. -/
theorem lcd_get_buffer_returns_front (s : State) (length : Nat) :
    lcd_get_buffer s length = s.m_fb_front
      ∧ (s.m_fb_front ≠ s.fb_back → lcd_get_buffer s length ≠ s.fb_back) := by
  unfold lcd_get_buffer
  exact ⟨rfl, fun h => h⟩

/-- C9 fails as stated: in a state whose front buffer is `fb[1]` and whose back
buffer is `fb[0]`, `lcd_get_buffer` returns the front buffer and not
`fb_back`. -/
theorem lcd_get_buffer_not_back :
    (steady 0 true false).m_fb_front ≠ (steady 0 true false).fb_back
      ∧ lcd_get_buffer (steady 0 true false) 76800 = (steady 0 true false).m_fb_front
      ∧ lcd_get_buffer (steady 0 true false) 76800 ≠ (steady 0 true false).fb_back := by
  decide

/-- Every completed `lcd_send_buffer` leaves `m_fb_front` and `fb_back` as
`fb[0]` and `fb[1]` in one order or the other. -/
theorem lcd_send_buffer_roles (s s1 : State) (buf : Int) (len : Nat)
    (h : lcd_send_buffer s buf len = some s1) :
    (s1.m_fb_front = s1.fb0 ∧ s1.fb_back = s1.fb1)
      ∨ (s1.m_fb_front = s1.fb1 ∧ s1.fb_back = s1.fb0) := by
  cases hv : s.vsync_event with
  | false => rw [lcd_send_buffer_blocked s buf len hv] at h; cases h
  | true =>
    obtain ⟨s2, h2, _, _, _, hfront, hback, _, h0, h1⟩ := lcd_send_buffer_of_vsync s buf len hv
    rw [h2] at h
    obtain rfl : s2 = s1 := Option.some.inj h
    rw [hfront, hback, h0, h1]
    by_cases hc : s.fb_back = s.fb0
    · exact Or.inl (by simp [hc])
    · exact Or.inr (by simp [hc])

/-- From the first completed `lcd_send_buffer` on, `m_fb_front` and `fb_back`
are `fb[0]` and `fb[1]` in one order or the other. -/
theorem run_send_roles (bs : List (Int × Nat)) (b : Int × Nat) (s s1 : State)
    (h : run_send s (b :: bs) = some s1) :
    (s1.m_fb_front = s1.fb0 ∧ s1.fb_back = s1.fb1)
      ∨ (s1.m_fb_front = s1.fb1 ∧ s1.fb_back = s1.fb0) := by
  induction bs generalizing s b with
  | nil =>
    simp only [run_send] at h
    cases h1 : lcd_send_buffer s b.1 b.2 with
    | none => simp [h1] at h
    | some s2 =>
      simp only [h1, Option.some.injEq] at h
      subst h
      exact lcd_send_buffer_roles s s2 b.1 b.2 h1
  | cons c cs ih =>
    rw [run_send] at h
    cases h1 : lcd_send_buffer s b.1 b.2 with
    | none => simp [h1] at h
    | some s2 =>
      simp only [h1] at h
      exact ih c s2 h

/-- C10 at zero calls of `lcd_send_buffer`: `lcd_init` never assigns `fb_back`,
so in the state it leaves `fb_back` is still `NULL` and is neither `fb[0]` nor
`fb[1]`, while `m_fb_front` is `fb[1]`. -/
theorem lcd_init_leaves_fb_back_null :
    ∃ s, lcd_init compiled (boot (fun _ => 0)) 100000 200000 1000 2000 = some s
      ∧ run_send s [] = some s
      ∧ s.fb_back = 0 ∧ s.fb_back ≠ s.fb0 ∧ s.fb_back ≠ s.fb1
      ∧ s.m_fb_front = s.fb1 :=
  ⟨_, rfl, rfl, by decide, by decide, by decide, by decide⟩

/-! ## The signals after initialisation -/

/-- C11, as the code has it: right after `test_init_lcd` returns `vsync_event`
is available and `fb_ready` is not: it is given and then taken again. -/
theorem test_init_lcd_fb_ready_taken (cfg : Config) (s : State) (lc : lcd_config_t)
    (hw0 hw1 : Int) :
    (test_init_lcd cfg s lc hw0 hw1).vsync_event = true
      ∧ (test_init_lcd cfg s lc hw0 hw1).fb_ready = false :=
  ⟨(test_init_lcd_signals cfg s lc hw0 hw1).1, (test_init_lcd_signals cfg s lc hw0 hw1).2.1⟩

/-- C11 fails as stated: after `test_init_lcd` with the configuration of
`lcd_init` the two signals are not both available. -/
theorem test_init_lcd_not_both_available :
    ¬ ((test_init_lcd compiled (boot (fun _ => 0))
          ⟨TEST_BUFFER_WIDTH, TEST_BUFFER_HEIGHT, PREFER_VSYNC_OVER_FPS⟩ 1000 2000).vsync_event
          = true
        ∧ (test_init_lcd compiled (boot (fun _ => 0))
          ⟨TEST_BUFFER_WIDTH, TEST_BUFFER_HEIGHT, PREFER_VSYNC_OVER_FPS⟩ 1000 2000).fb_ready
          = true) := by
  decide

/-! ## The starting source offset -/

/-- The geometry of the non-rotated branch before the last assignment, spelled
out: the raw offsets, and the start offset with the column shift of the clamp. -/
theorem unrotated_start (S H V w h : Int) (s : State) :
    (calculate_image_offset ⟨false, S, H, V⟩ (with_dims s w h)).ofs_src_start
      = (-((V - h * S).tdiv 2)).tdiv S * w
        - (if (H - w * S).tdiv 2 < 0 then ((H - w * S).tdiv 2).tdiv S else 0) := by
  by_cases hx : (H - w * S).tdiv 2 < 0 <;>
    simp [calculate_image_offset, calculate_image_offset_raw, with_dims, hx]

/-- The start offset of the rotated branch, spelled out. -/
theorem rotated_start (S H V w h : Int) (s : State) :
    (calculate_image_offset ⟨true, S, H, V⟩ (with_dims s w h)).ofs_src_start
      = (-((V - w * S).tdiv 2)).tdiv S := by
  by_cases hy : (H - h * S).tdiv 2 < 0 <;>
    simp [calculate_image_offset, calculate_image_offset_raw, with_dims, hy]

/-- C12, as the code has it: the start is strictly positive once the image
exceeds the panel along the scan axis by at least two source pixels.  In the
compiled rotated build `ofs_src_start ≥ 1` for every width with
`w * 3 ≥ 720 + 6`; in the non-rotated branch the starting source row
`ofs_src_start / fb_buffer_width` is at least 1 for every height with
`h * S ≥ V_RES + 2 * S` (scaling `S ≥ 1`, width `w ≥ 1`). -/
theorem ofs_src_start_positive :
    (∀ (w h : Int) (s : State), 720 + 2 * 3 ≤ w * 3 →
        1 ≤ (calculate_image_offset compiled (with_dims s w h)).ofs_src_start)
      ∧ (∀ (S H V w h : Int) (s : State), 1 ≤ S → 1 ≤ w → V + 2 * S ≤ h * S →
        1 ≤ ((calculate_image_offset ⟨false, S, H, V⟩
              (with_dims s w h)).ofs_src_start).tdiv w) := by
  constructor
  · intro w h s hw
    have e := rotated_start 3 720 720 w h s
    have hx : (720 - w * 3).tdiv 2 = -((-(720 - w * 3)) / 2) :=
      tdiv_of_nonpos (by omega) (by omega)
    have e2 : (calculate_image_offset compiled (with_dims s w h)).ofs_src_start
        = ((-(720 - w * 3)) / 2).tdiv 3 := by
      rw [show compiled = ⟨true, 3, 720, 720⟩ from rfl, e, hx, neg_neg]
    rw [e2, tdiv_of_nonneg (by omega) (by omega)]
    omega
  · intro S H V w h s hS hw hh
    rw [unrotated_start]
    have hy : (V - h * S).tdiv 2 = -((-(V - h * S)) / 2) :=
      tdiv_of_nonpos (by omega) (by omega)
    have hB : S ≤ (-(V - h * S)) / 2 := by omega
    have hk0 : (-(-((-(V - h * S)) / 2))).tdiv S = (-(V - h * S)) / 2 / S := by
      rw [neg_neg]; exact tdiv_of_nonneg (by omega) (by omega)
    have hk : 1 ≤ (-(V - h * S)) / 2 / S :=
      Int.le_ediv_of_mul_le (by omega) (by omega)
    have hkw : w ≤ (-(V - h * S)) / 2 / S * w := by nlinarith
    have hc : (if (H - w * S).tdiv 2 < 0 then ((H - w * S).tdiv 2).tdiv S else 0) ≤ 0 := by
      split_ifs with hneg
      · rw [tdiv_of_nonpos (le_of_lt hneg) (by omega : (0 : Int) ≤ S)]
        have : 0 ≤ (-((H - w * S).tdiv 2)) / S := Int.ediv_nonneg (by omega) (by omega)
        omega
      · exact le_refl 0
    rw [hy, hk0]
    generalize (if (H - w * S).tdiv 2 < 0 then ((H - w * S).tdiv 2).tdiv S else 0) = c at hc ⊢
    generalize (-(V - h * S)) / 2 / S * w = kw at hkw ⊢
    rw [tdiv_of_nonneg (by omega : 0 ≤ kw - c) (by omega : (0 : Int) ≤ w)]
    exact Int.le_ediv_of_mul_le (by omega) (by omega)

/-- Witness of C12: the 320 x 240 frame of the compiled build (960 > 720), and
a 320 x 300 frame in the non-rotated branch (900 > 720). -/
theorem ofs_src_start_positive_witness :
    1 ≤ (calculate_image_offset compiled
          (with_dims (boot (fun _ => 0)) 320 240)).ofs_src_start
      ∧ 1 ≤ ((calculate_image_offset ⟨false, 3, 720, 720⟩
          (with_dims (boot (fun _ => 0)) 320 300)).ofs_src_start).tdiv 320 :=
  ⟨ofs_src_start_positive.1 320 240 (boot (fun _ => 0)) (by decide),
    ofs_src_start_positive.2 3 720 720 320 300 (boot (fun _ => 0))
      (by decide) (by decide) (by decide)⟩

/-- C12 fails as stated: in the compiled rotated build the width 241 exceeds the
panel after scaling (723 > 720), and the start offset is 0. -/
theorem ofs_src_start_zero_at_241 :
    (241 : Int) * 3 > 720
      ∧ ¬ (1 ≤ (calculate_image_offset compiled
            (with_dims (boot (fun _ => 0)) 241 240)).ofs_src_start) := by
  decide

/-! ## An image that exactly fills the panel -/

/-- The callback leaves the geometry as it is. -/
theorem refresh_result_geometry (cfg : Config) (s : State) (ctx : Nat) (p : Int) :
    (refresh_result cfg s ctx p).1.fb_buffer_width = s.fb_buffer_width
      ∧ (refresh_result cfg s ctx p).1.fb_buffer_height = s.fb_buffer_height
      ∧ (refresh_result cfg s ctx p).1.ofs_src_start = s.ofs_src_start
      ∧ (refresh_result cfg s ctx p).1.ofs_src_line_inc = s.ofs_src_line_inc
      ∧ (refresh_result cfg s ctx p).1.linebuf_width = s.linebuf_width
      ∧ (refresh_result cfg s ctx p).1.ofs_x = s.ofs_x
      ∧ (refresh_result cfg s ctx p).1.ofs_y = s.ofs_y := by
  unfold refresh_result frame_sync underrun_adjust xSemaphoreTake
  simp only
  split_ifs <;> simp

/-- The cursor after the underrun adjustment satisfies the invariant of a full
frame, and the copy branch accepts it. -/
theorem scan_inv_adjust (cfg : Config) (s : State) (ctx : Nat) (h : scan_inv cfg s) :
    scan_inv cfg (underrun_adjust s ctx)
      ∧ in_source_range cfg (underrun_adjust s ctx) = true := by
  obtain ⟨h1, h2, h3, h4, h5, h6, h7, h8⟩ := h
  have key : ∀ t : State, scan_inv cfg t → in_source_range cfg t = true := by
    intro t ⟨_, t2, t3, _, t5, t6, _, t8⟩
    have hlt : t.ofs_src < cfg.v_res.tdiv cfg.scaling * t.ofs_src_line_inc := by nlinarith
    unfold in_source_range
    cases hr : cfg.rotation
    · simp only [hr, Bool.false_eq_true, if_false] at t3 ⊢
      simp only [Bool.and_eq_true, decide_eq_true_eq]
      exact ⟨t5, by omega⟩
    · simp only [hr, if_true] at t3 ⊢
      simp only [Bool.and_eq_true, decide_eq_true_eq]
      exact ⟨t5, by omega⟩
  have hadj : scan_inv cfg (underrun_adjust s ctx) := by
    unfold underrun_adjust
    split_ifs
    · refine ⟨h1, h2, h3, h4, ?_, ?_, ?_, ?_⟩ <;> simp only <;> omega
    · exact ⟨h1, h2, h3, h4, h5, h6, h7, h8⟩
  exact ⟨hadj, key _ hadj⟩

/-- One invocation keeps the invariant of a full frame. -/
theorem scan_inv_step (cfg : Config) (s : State) (ctx : Nat) (p : Int)
    (h : scan_inv cfg s) : scan_inv cfg (refresh_result cfg s ctx p).1 := by
  obtain ⟨⟨a1, a2, a3, a4, a5, a6, a7, a8⟩, _⟩ := scan_inv_adjust cfg s ctx h
  obtain ⟨g1, g2, g3, g4, _, _, _⟩ := refresh_result_geometry cfg s ctx p
  obtain ⟨u1, u2, _, _, _, u6, u7⟩ := underrun_adjust_geometry s ctx
  rw [u6] at a1
  rw [u7] at a2 a3 a6
  rw [u1, u2] at a3
  unfold scan_inv
  rw [g1, g2, g3, g4]
  cases hb : at_boundary cfg s ctx
  · obtain ⟨_, _, hc, ho, _⟩ := refresh_result_inner cfg s ctx p hb
    simp only [at_boundary, decide_eq_false_iff_not] at hb
    rw [hc, ho]
    refine ⟨a1, a2, a3, a4, by omega, by nlinarith, by omega, by omega⟩
  · obtain ⟨hc, ho, _⟩ := refresh_result_boundary cfg s ctx p hb
    rw [hc, ho]
    refine ⟨a1, a2, a3, a4, by omega, by omega, by omega, by omega⟩

/-- A run of invocations keeps the invariant of a full frame. -/
theorem scan_inv_run (cfg : Config) (ctxs : List Nat) (s : State)
    (r : State × List Event) (h : scan_inv cfg s)
    (hr : run_refresh cfg s ctxs = some r) : scan_inv cfg r.1 := by
  induction ctxs generalizing s r with
  | nil =>
    simp only [run_refresh, Option.some.injEq] at hr
    subst hr; exact h
  | cons c cs ih =>
    obtain ⟨r1, r2, h1, h2, rfl⟩ := (run_refresh_cons cfg s c cs r).1 hr
    obtain ⟨p, _, _, hr1⟩ := (refresh_eq_some_iff cfg s c r1).1 h1
    have hs := scan_inv_step cfg s c p h
    rw [← hr1] at hs
    exact ih r1.1 r2 hs h2

/-- For an image that exactly fills the 720 x 720 panel at scaling 1, 2 or 3,
`test_init_lcd` leaves zero offsets and a cursor that satisfies the invariant of
a full frame, with or without rotation. -/
theorem exact_fit_init (rot : Bool) (S w h prefer hw0 hw1 : Int) (s0 : State)
    (hS1 : 1 ≤ S) (hS3 : S ≤ 3) (hw : w * S = 720) (hh : h * S = 720)
    (hcnt : s0.line_block_cnt = 2) :
    (test_init_lcd ⟨rot, S, 720, 720⟩ s0 ⟨w, h, prefer⟩ hw0 hw1).ofs_x = 0
      ∧ (test_init_lcd ⟨rot, S, 720, 720⟩ s0 ⟨w, h, prefer⟩ hw0 hw1).ofs_y = 0
      ∧ (test_init_lcd ⟨rot, S, 720, 720⟩ s0 ⟨w, h, prefer⟩ hw0 hw1).ofs_src_start = 0
      ∧ scan_inv ⟨rot, S, 720, 720⟩
          (test_init_lcd ⟨rot, S, 720, 720⟩ s0 ⟨w, h, prefer⟩ hw0 hw1) := by
  have d1 : Int.tdiv 720 1 = 720 := by decide
  have d2 : Int.tdiv 720 2 = 360 := by decide
  have d3 : Int.tdiv 720 3 = 240 := by decide
  have hSc : S = 1 ∨ S = 2 ∨ S = 3 := by omega
  rcases hSc with rfl | rfl | rfl
  · obtain rfl : w = 720 := by omega
    obtain rfl : h = 720 := by omega
    cases rot <;>
      simp [test_init_lcd, calculate_image_offset, calculate_image_offset_raw, scan_inv,
        hcnt, d1]
  · obtain rfl : w = 360 := by omega
    obtain rfl : h = 360 := by omega
    cases rot <;>
      simp [test_init_lcd, calculate_image_offset, calculate_image_offset_raw, scan_inv,
        hcnt, d2]
  · obtain rfl : w = 240 := by omega
    obtain rfl : h = 240 := by omega
    cases rot <;>
      simp [test_init_lcd, calculate_image_offset, calculate_image_offset_raw, scan_inv,
        hcnt, d3]

/-- C13: when the scaled logical image exactly fills the 720 x 720 panel
(`w * S = 720` and `h * S = 720`, scaling 1, 2 or 3, with or without rotation;
the compiled case is 240 x 240 at scaling 3), initialisation yields
`ofs_x = ofs_y = 0` and `ofs_src_start = 0`, and in every state reached from the
initial state (`line_block_cnt = 2`) by callback invocations with arbitrary
context words the next invocation takes the copy branch: no line is blanked. -/
theorem exact_fit_never_blank (rot : Bool) (S w h prefer hw0 hw1 : Int) (s0 : State)
    (hS1 : 1 ≤ S) (hS3 : S ≤ 3) (hw : w * S = 720) (hh : h * S = 720)
    (hcnt : s0.line_block_cnt = 2) :
    (test_init_lcd ⟨rot, S, 720, 720⟩ s0 ⟨w, h, prefer⟩ hw0 hw1).ofs_x = 0
      ∧ (test_init_lcd ⟨rot, S, 720, 720⟩ s0 ⟨w, h, prefer⟩ hw0 hw1).ofs_y = 0
      ∧ (test_init_lcd ⟨rot, S, 720, 720⟩ s0 ⟨w, h, prefer⟩ hw0 hw1).ofs_src_start = 0
      ∧ ∀ (ctxs : List Nat) (r : State × List Event),
          run_refresh ⟨rot, S, 720, 720⟩
              (test_init_lcd ⟨rot, S, 720, 720⟩ s0 ⟨w, h, prefer⟩ hw0 hw1) ctxs = some r →
          ∀ ctx : Nat,
            in_source_range ⟨rot, S, 720, 720⟩ (underrun_adjust r.1 ctx) = true := by
  obtain ⟨hx, hy, hst, hinv⟩ := exact_fit_init rot S w h prefer hw0 hw1 s0 hS1 hS3 hw hh hcnt
  refine ⟨hx, hy, hst, ?_⟩
  intro ctxs r hr ctx
  exact (scan_inv_adjust _ r.1 ctx (scan_inv_run _ ctxs _ r hinv hr)).2

/-- Witness of C13: the compiled build with the 240 x 240 image, initialised
from the boot state. -/
theorem exact_fit_never_blank_witness :
    (test_init_lcd ⟨true, 3, 720, 720⟩ (boot (fun _ => 0)) ⟨240, 240, 0⟩ 1000 2000).ofs_x = 0
      ∧ (test_init_lcd ⟨true, 3, 720, 720⟩ (boot (fun _ => 0)) ⟨240, 240, 0⟩ 1000 2000).ofs_y
          = 0
      ∧ (test_init_lcd ⟨true, 3, 720, 720⟩ (boot (fun _ => 0))
          ⟨240, 240, 0⟩ 1000 2000).ofs_src_start = 0
      ∧ ∀ (ctxs : List Nat) (r : State × List Event),
          run_refresh ⟨true, 3, 720, 720⟩
              (test_init_lcd ⟨true, 3, 720, 720⟩ (boot (fun _ => 0)) ⟨240, 240, 0⟩ 1000 2000)
              ctxs = some r →
          ∀ ctx : Nat,
            in_source_range ⟨true, 3, 720, 720⟩ (underrun_adjust r.1 ctx) = true :=
  exact_fit_never_blank true 3 240 240 0 1000 2000 (boot (fun _ => 0))
    (by decide) (by decide) (by decide) (by decide) (by decide)

/-! ## The backlight -/

theorem tdiv_neg_iff (n d : Int) (hd : 0 < d) : n.tdiv d < 0 ↔ n ≤ -d := by
  by_cases hn : 0 ≤ n
  · rw [tdiv_of_nonneg hn (le_of_lt hd)]
    have : 0 ≤ n / d := Int.ediv_nonneg hn (le_of_lt hd)
    omega
  · rw [tdiv_of_nonpos (by omega) (le_of_lt hd)]
    have : 1 ≤ (-n) / d ↔ 1 * d ≤ -n := Int.le_ediv_iff_mul_le hd
    omega

theorem le_tdiv_iff (n d k : Int) (hd : 0 < d) (hk : 0 < k) :
    k ≤ n.tdiv d ↔ k * d ≤ n := by
  by_cases hn : 0 ≤ n
  · rw [tdiv_of_nonneg hn (le_of_lt hd)]
    exact Int.le_ediv_iff_mul_le hd
  · rw [tdiv_of_nonpos (by omega) (le_of_lt hd)]
    have : 0 ≤ (-n) / d := Int.ediv_nonneg (by omega) (le_of_lt hd)
    have : 0 < k * d := Int.mul_pos hk hd
    omega

theorem rat_le_neg_one_iff (q : ℚ) (n d : Int) (hd : 0 < d) (hq : q = n / d) :
    q ≤ -1 ↔ n ≤ -d := by
  subst hq
  have hd' : (0 : ℚ) < d := by exact_mod_cast hd
  rw [div_le_iff₀ hd']
  constructor
  · intro h
    have : (n : ℚ) ≤ ((-d : Int) : ℚ) := by push_cast; linarith
    exact_mod_cast this
  · intro h
    have : (n : ℚ) ≤ ((-d : Int) : ℚ) := by exact_mod_cast h
    push_cast at this; linarith

theorem rat_int_le_iff (q : ℚ) (n d k : Int) (hd : 0 < d) (hq : q = n / d) :
    (k : ℚ) ≤ q ↔ k * d ≤ n := by
  subst hq
  have hd' : (0 : ℚ) < d := by exact_mod_cast hd
  rw [le_div_iff₀ hd']
  constructor
  · intro h; exact_mod_cast h
  · intro h; exact_mod_cast h

/-- The truncated value is negative exactly from `-1` downward. -/
theorem c_trunc_neg_iff (q : ℚ) : c_trunc q < 0 ↔ q ≤ -1 := by
  have hd : (0 : Int) < q.den := by exact_mod_cast q.pos
  have hq : q = (q.num : ℚ) / ((q.den : Int) : ℚ) := by
    simpa using (Rat.num_div_den q).symm
  unfold c_trunc
  rw [tdiv_neg_iff _ _ hd, rat_le_neg_one_iff q q.num q.den hd hq]

/-- The truncated value reaches a positive integer exactly when the value does. -/
theorem le_c_trunc_iff (q : ℚ) (k : Int) (hk : 0 < k) : k ≤ c_trunc q ↔ (k : ℚ) ≤ q := by
  have hd : (0 : Int) < q.den := by exact_mod_cast q.pos
  have hq : q = (q.num : ℚ) / ((q.den : Int) : ℚ) := by
    simpa using (Rat.num_div_den q).symm
  unfold c_trunc
  rw [le_tdiv_iff _ _ k hd hk, rat_int_le_iff q q.num q.den k hd hq]

/-- The function `lcd_set_backlight` returns without writing exactly when the
level is outside `0..255`, that is when `percent * 2.55` is at most `-1` or at
least `256`. -/
theorem lcd_set_backlight_none_iff (percent : ℚ) :
    lcd_set_backlight percent = none
      ↔ percent * (255 / 100) ≤ -1 ∨ 256 ≤ percent * (255 / 100) := by
  have h1 := c_trunc_neg_iff (percent * (255 / 100))
  have h2 := le_c_trunc_iff (percent * (255 / 100)) 256 (by decide)
  have h3 : c_trunc (percent * (255 / 100)) > 255
      ↔ (256 : Int) ≤ c_trunc (percent * (255 / 100)) := by omega
  unfold lcd_set_backlight
  simp only [ite_eq_left_iff, reduceCtorEq, imp_false, not_not]
  rw [h1, h3, h2]
  norm_num

/-- C14, as the code has it: `lcd_set_backlight` returns without writing a duty
exactly when `level = trunc(percent * 2.55)` is outside `0..255`, that is for
`percent * 2.55 ≤ -1` or `percent * 2.55 ≥ 256`; this covers the percent values
from `-20/51` downward and from `5120/51` upward, not all values outside
`0..100`. -/
theorem lcd_set_backlight_ignores (percent : ℚ) :
    (lcd_set_backlight percent = none
        ↔ percent * (255 / 100) ≤ -1 ∨ 256 ≤ percent * (255 / 100))
      ∧ (lcd_set_backlight percent = none ↔ percent ≤ -20 / 51 ∨ 5120 / 51 ≤ percent) := by
  refine ⟨lcd_set_backlight_none_iff percent, ?_⟩
  rw [lcd_set_backlight_none_iff]
  constructor
  · rintro (h | h)
    · left; linarith
    · right; linarith
  · rintro (h | h)
    · left; linarith
    · right; linarith

/-- C14 fails as stated: the percent values `-1/8` (below 0) and `401/4`
(above 100) have the levels 0 and 255, and the duty is written. -/
theorem lcd_set_backlight_writes_out_of_range :
    (-1 / 8 : ℚ) < 0 ∧ lcd_set_backlight (-1 / 8) = some 0
      ∧ (100 : ℚ) < 401 / 4 ∧ lcd_set_backlight (401 / 4) = some 255 := by
  have a1 := c_trunc_neg_iff (-1 / 8 * (255 / 100))
  have a2 := le_c_trunc_iff (-1 / 8 * (255 / 100)) 1 (by decide)
  have b1 := le_c_trunc_iff (401 / 4 * (255 / 100)) 255 (by decide)
  have b2 := le_c_trunc_iff (401 / 4 * (255 / 100)) 256 (by decide)
  have ha : c_trunc (-1 / 8 * (255 / 100)) = 0 := by
    have n1 : ¬ ((-1 / 8 * (255 / 100) : ℚ) ≤ -1) := by norm_num
    have n2 : ¬ (((1 : Int) : ℚ) ≤ -1 / 8 * (255 / 100)) := by norm_num
    have := a1.not.2 n1
    have := a2.not.2 n2
    omega
  have hb : c_trunc (401 / 4 * (255 / 100)) = 255 := by
    have n1 : (((255 : Int)) : ℚ) ≤ 401 / 4 * (255 / 100) := by norm_num
    have n2 : ¬ (((256 : Int) : ℚ) ≤ 401 / 4 * (255 / 100)) := by norm_num
    have := b1.2 n1
    have := b2.not.2 n2
    omega
  refine ⟨by norm_num, ?_, by norm_num, ?_⟩
  · unfold lcd_set_backlight
    rw [ha]; decide
  · unfold lcd_set_backlight
    rw [hb]; decide

/-! ## Invalid dimensions -/

/-- C15, as the code has it: `calculate_image_offset` and `test_init_lcd` are
`void` and check nothing; for all logical dimensions, valid or not,
`test_init_lcd` stores them as given, computes the geometry from them and
registers `test_notify_refresh_ready` as the refresh callback. -/
theorem test_init_lcd_always_registers (cfg : Config) (s : State) (lc : lcd_config_t)
    (hw0 hw1 : Int) :
    (test_init_lcd cfg s lc hw0 hw1).on_refresh_done = true
      ∧ (test_init_lcd cfg s lc hw0 hw1).fb_buffer_width = lc.buffer_width
      ∧ (test_init_lcd cfg s lc hw0 hw1).fb_buffer_height = lc.buffer_height
      ∧ (test_init_lcd cfg s lc hw0 hw1).linebuf_width
          = (calculate_image_offset cfg
              (with_dims s lc.buffer_width lc.buffer_height)).linebuf_width := by
  unfold test_init_lcd calculate_image_offset calculate_image_offset_raw with_dims
    xSemaphoreGive xSemaphoreTake
  simp only
  split_ifs <;> simp

/-- C15 fails as stated: with the invalid dimensions 0 x 0 the valid span
`linebuf_width` is 0, and `test_init_lcd` still registers the refresh
callback. -/
theorem test_init_lcd_registers_on_invalid_dims :
    (test_init_lcd compiled (boot (fun _ => 0)) ⟨0, 0, 0⟩ 1000 2000).linebuf_width = 0
      ∧ (test_init_lcd compiled (boot (fun _ => 0)) ⟨0, 0, 0⟩ 1000 2000).fb_buffer_width = 0
      ∧ (test_init_lcd compiled (boot (fun _ => 0)) ⟨0, 0, 0⟩ 1000 2000).on_refresh_done
          = true := by
  decide

/-! ## The contents of the rendered line -/

/-- The memory after one iteration of the copy loop, when the destination
pixels of the iteration do not contain the source pixel. -/
theorem copy_body_mem (cfg : Config) (w front line : Int) (c : Copy)
    (hsep : ∀ j : Int, 0 ≤ j → j < rep cfg → line + (c.dst + j) ≠ front + c.src)
    (a : Int) :
    (copy_body cfg w front line c).mem a
      = if line + c.dst ≤ a ∧ a < line + c.dst + rep cfg then c.mem (front + c.src)
        else c.mem a := by
  have h0 := hsep 0 (le_refl 0) (by have := rep_pos cfg; omega)
  unfold copy_body emit store
  by_cases h3 : 3 ≤ cfg.scaling
  · have h2 : 2 ≤ cfg.scaling := by omega
    have hr : rep cfg = 3 := by unfold rep; simp [h3]
    have h1 := hsep 1 (by omega) (by omega)
    simp only [h2, h3, if_true, hr]
    split_ifs <;> first | rfl | omega
  · by_cases h2 : 2 ≤ cfg.scaling
    · have hr : rep cfg = 2 := by unfold rep; simp [h2, h3]
      simp only [h2, h3, if_true, if_false, hr]
      split_ifs <;> first | rfl | omega
    · have hr : rep cfg = 1 := by unfold rep; simp [h2, h3]
      simp only [h2, h3, if_false, hr]
      split_ifs <;> first | rfl | omega

/-- The memory after the copy loop, when the destination span contains none of
the source pixels that are read: outside the span nothing changes, and pixel `j`
of group `i` holds the source pixel of iteration `i`. -/
theorem copy_loop_mem (cfg : Config) (w front line : Int) (n : Nat) (c : Copy)
    (hsep : ∀ (x : Int) (i : Nat), 0 ≤ x → x < n * rep cfg → i < n →
      line + (c.dst + x) ≠ front + (c.src + i * src_step cfg w)) :
    (∀ a, (a < line + c.dst ∨ line + c.dst + n * rep cfg ≤ a) →
        (copy_loop cfg w front line n c).mem a = c.mem a)
      ∧ (∀ (i : Nat) (j : Int), i < n → 0 ≤ j → j < rep cfg →
        (copy_loop cfg w front line n c).mem (line + (c.dst + i * rep cfg + j))
          = c.mem (front + (c.src + i * src_step cfg w))) := by
  induction n generalizing c with
  | zero =>
    refine ⟨fun a _ => rfl, ?_⟩
    intro i j hi
    omega
  | succ n ih =>
    have hR := rep_pos cfg
    have hnR : 0 ≤ (n : Int) * rep cfg := mul_nonneg (by omega) (by omega)
    have e1 : ((n + 1 : Nat) : Int) * rep cfg = n * rep cfg + rep cfg := by push_cast; ring
    rw [e1] at hsep ⊢
    have hbody : ∀ a, (copy_body cfg w front line c).mem a
        = if line + c.dst ≤ a ∧ a < line + c.dst + rep cfg then c.mem (front + c.src)
          else c.mem a := by
      apply copy_body_mem
      intro j hj0 hj1
      have := hsep j 0 hj0 (by omega) (by omega)
      simpa using this
    have hsep1 : ∀ (x : Int) (i : Nat), 0 ≤ x → x < n * rep cfg → i < n →
        line + ((copy_body cfg w front line c).dst + x)
          ≠ front + ((copy_body cfg w front line c).src + i * src_step cfg w) := by
      intro x i hx0 hx1 hi
      rw [copy_body_dst, copy_body_src]
      have := hsep (x + rep cfg) (i + 1) (by omega) (by omega) (by omega)
      have e2 : c.src + ((i + 1 : Nat) : Int) * src_step cfg w
          = c.src + src_step cfg w + i * src_step cfg w := by push_cast; ring
      rw [e2] at this
      intro h
      apply this
      rw [← h]; ring
    obtain ⟨ih1, ih2⟩ := ih (copy_body cfg w front line c) hsep1
    rw [copy_body_dst] at ih1 ih2
    rw [copy_body_src] at ih2
    simp only [copy_loop]
    constructor
    · intro a ha
      rw [ih1 a (by omega), hbody a, if_neg (by omega)]
    · intro i j hi hj0 hj1
      cases i with
      | zero =>
        have ea : line + (c.dst + ((0 : Nat) : Int) * rep cfg + j) = line + (c.dst + j) := by
          push_cast; ring
        rw [ea, ih1 _ (by omega), hbody, if_pos (by omega)]
        simp
      | succ k =>
        have ea : line + (c.dst + ((k + 1 : Nat) : Int) * rep cfg + j)
            = line + (c.dst + rep cfg + k * rep cfg + j) := by push_cast; ring
        have eb : front + (c.src + ((k + 1 : Nat) : Int) * src_step cfg w)
            = front + (c.src + src_step cfg w + k * src_step cfg w) := by push_cast; ring
        rw [ea, eb, ih2 k j (by omega) hj0 hj1, hbody]
        rw [if_neg]
        intro hin
        have := hsep (front + (c.src + src_step cfg w + k * src_step cfg w) - line - c.dst)
          (k + 1) (by omega) (by omega) (by omega)
        apply this
        rw [eb]; ring

/-- The memory after the blanking loop: the pixels `2 * d` up to `2 * (d + n)`
of the line are zero, all else is unchanged. -/
theorem blank_loop_mem (line : Int) (n : Nat) (d : Int) (m : Mem) (tr : List Event)
    (a : Int) :
    (blank_loop line n d m tr).1 a
      = if line + 2 * d ≤ a ∧ a < line + 2 * (d + n) then 0 else m a := by
  induction n generalizing d m tr with
  | zero =>
    simp only [blank_loop]
    rw [if_neg (by push_cast; omega)]
  | succ n ih =>
    simp only [blank_loop]
    rw [ih]
    unfold store
    push_cast
    split_ifs <;> first | rfl | omega

/-- The memory after an invocation is the memory after rendering the line: the
cursor update and the semaphores write no pixel. -/
theorem refresh_result_mem (cfg : Config) (s : State) (ctx : Nat) (p : Int) :
    (refresh_result cfg s ctx p).1.mem = (render_line cfg (underrun_adjust s ctx) p).1 := by
  unfold refresh_result frame_sync xSemaphoreTake
  simp only
  split_ifs <;> rfl

/-- The line rendered by the copy branch of the compiled build. -/
theorem render_line_copy (s : State) (p : Int)
    (hr : 0 ≤ s.ofs_src ∧ s.ofs_src < s.fb_buffer_width)
    (hsep : ∀ x k : Int, 0 ≤ x → x < 3 * s.linebuf_width → 0 ≤ k → k < s.linebuf_width →
      p + (s.ofs_y + x) ≠ s.m_fb_front + (s.ofs_src + k * s.fb_buffer_width)) :
    (∀ x j : Int, 0 ≤ x → x < s.linebuf_width → 0 ≤ j → j < 3 →
        (render_line compiled s p).1 (p + (s.ofs_y + 3 * x + j))
          = s.mem (s.m_fb_front
              + (s.ofs_src + (s.linebuf_width - 1 - x) * s.fb_buffer_width)))
      ∧ (∀ a, (a < p + s.ofs_y ∨ p + s.ofs_y + 3 * s.linebuf_width ≤ a) →
        (render_line compiled s p).1 a = s.mem a) := by
  have hin : in_source_range compiled s = true := by
    simp only [in_source_range, compiled, if_true, Bool.and_eq_true, decide_eq_true_eq]
    exact hr
  have h3 : rep compiled = 3 := by decide
  have hst : src_step compiled s.fb_buffer_width = -s.fb_buffer_width := by
    simp [src_step, compiled]
  unfold render_line
  rw [if_pos hin]
  simp only [show compiled.rotation = true from rfl, if_true]
  have hloop := copy_loop_mem compiled s.fb_buffer_width s.m_fb_front p s.linebuf_width.toNat
    { dst := s.ofs_y, src := s.ofs_src + (s.linebuf_width - 1) * s.fb_buffer_width,
      mem := s.mem, trace := [] }
    (by
      intro x i hx0 hx1 hi
      rw [h3] at hx1
      rw [hst]
      have hi' : (i : Int) < s.linebuf_width := by omega
      have := hsep x (s.linebuf_width - 1 - i) hx0 (by omega) (by omega) (by omega)
      intro h
      apply this
      simp only at h
      rw [h]; ring)
  rw [h3, hst] at hloop
  simp only at hloop
  obtain ⟨l1, l2⟩ := hloop
  constructor
  · intro x j hx0 hx1 hj0 hj1
    have := l2 x.toNat j (by omega) hj0 hj1
    have ex : ((x.toNat : Nat) : Int) = x := Int.toNat_of_nonneg hx0
    rw [ex] at this
    have ea : p + (s.ofs_y + 3 * x + j) = p + (s.ofs_y + x * 3 + j) := by ring
    have eb : s.m_fb_front + (s.ofs_src + (s.linebuf_width - 1 - x) * s.fb_buffer_width)
        = s.m_fb_front + (s.ofs_src + (s.linebuf_width - 1) * s.fb_buffer_width
            + x * -s.fb_buffer_width) := by ring
    rw [ea, eb]
    exact this
  · intro a ha
    apply l1
    rcases ha with ha | ha
    · exact Or.inl ha
    · by_cases hl : 0 ≤ s.linebuf_width
      · right
        have : ((s.linebuf_width.toNat : Nat) : Int) = s.linebuf_width :=
          Int.toNat_of_nonneg hl
        rw [this]; omega
      · have : s.linebuf_width.toNat = 0 := by omega
        rw [this]
        by_cases hlt : a < p + s.ofs_y
        · exact Or.inl hlt
        · right; push_cast; omega

/-- The line rendered by the blanking branch of the compiled build. -/
theorem render_line_blank (s : State) (p : Int)
    (hr : ¬ (0 ≤ s.ofs_src ∧ s.ofs_src < s.fb_buffer_width)) :
    (∀ i : Int, 0 ≤ i → i < 720 → (render_line compiled s p).1 (p + i) = 0)
      ∧ (∀ a, (a < p ∨ p + 720 ≤ a) → (render_line compiled s p).1 a = s.mem a) := by
  have hin : ¬ in_source_range compiled s = true := by
    simp only [in_source_range, compiled, if_true, Bool.and_eq_true, decide_eq_true_eq]
    exact hr
  have h360 : (Int.tdiv compiled.h_res 2).toNat = 360 := by decide
  unfold render_line
  rw [if_neg hin, h360]
  constructor
  · intro i hi0 hi1
    rw [blank_loop_mem, if_pos (by push_cast; omega)]
  · intro a ha
    rw [blank_loop_mem, if_neg (by push_cast; omega)]

/-- C16: in the compiled configuration, with `c` the cursor `ofs_src` after the
underrun adjustment: if `0 ≤ c < fb_buffer_width` then, the written span of the
hardware line containing none of the source pixels read, after one invocation
`line[ofs_y + 3 * x + j] = front[c + (linebuf_width - 1 - x) * fb_buffer_width]`
for all `0 ≤ x < linebuf_width` and `0 ≤ j < 3` (`front` as before the
invocation), and every pixel outside that span is unchanged; otherwise all 720
pixels of the line are 0 and every other pixel is unchanged. -/
theorem refresh_line_contents (s : State) (ctx : Nat) (hline : line_ready s ctx = true) :
    ∃ p r, fb_hw_at s (ctx &&& 0xff) = some p
      ∧ test_notify_refresh_ready compiled s ctx = some r
      ∧ ((0 ≤ (underrun_adjust s ctx).ofs_src
            ∧ (underrun_adjust s ctx).ofs_src < s.fb_buffer_width) →
          (∀ x k : Int, 0 ≤ x → x < 3 * s.linebuf_width → 0 ≤ k → k < s.linebuf_width →
            p + (s.ofs_y + x)
              ≠ s.m_fb_front + ((underrun_adjust s ctx).ofs_src + k * s.fb_buffer_width)) →
          (∀ x j : Int, 0 ≤ x → x < s.linebuf_width → 0 ≤ j → j < 3 →
              r.1.mem (p + (s.ofs_y + 3 * x + j))
                = s.mem (s.m_fb_front + ((underrun_adjust s ctx).ofs_src
                    + (s.linebuf_width - 1 - x) * s.fb_buffer_width)))
            ∧ (∀ a, (a < p + s.ofs_y ∨ p + s.ofs_y + 3 * s.linebuf_width ≤ a) →
              r.1.mem a = s.mem a))
      ∧ (¬ (0 ≤ (underrun_adjust s ctx).ofs_src
            ∧ (underrun_adjust s ctx).ofs_src < s.fb_buffer_width) →
          (∀ i : Int, 0 ≤ i → i < 720 → r.1.mem (p + i) = 0)
            ∧ (∀ a, (a < p ∨ p + 720 ≤ a) → r.1.mem a = s.mem a)) := by
  obtain ⟨p, hp, hp0⟩ := (line_ready_iff s ctx).1 hline
  refine ⟨p, _, hp, (refresh_eq_some_iff compiled s ctx _).2 ⟨p, hp, hp0, rfl⟩, ?_, ?_⟩
  · intro hr hsep
    obtain ⟨u1, _, u3, _, u5, _, _⟩ := underrun_adjust_geometry s ctx
    obtain ⟨_, _, _, u4⟩ := underrun_adjust_signals s ctx
    have umem : (underrun_adjust s ctx).mem = s.mem := by
      unfold underrun_adjust; split_ifs <;> rfl
    have := render_line_copy (underrun_adjust s ctx) p (by rw [u1]; exact hr)
      (by rw [u1, u3, u4, u5]; exact hsep)
    rw [u1, u3, u4, u5, umem] at this
    rw [refresh_result_mem]
    exact this
  · intro hr
    obtain ⟨u1, _, _, _, _, _, _⟩ := underrun_adjust_geometry s ctx
    have umem : (underrun_adjust s ctx).mem = s.mem := by
      unfold underrun_adjust; split_ifs <;> rfl
    have := render_line_blank (underrun_adjust s ctx) p (by rw [u1]; exact hr)
    rw [umem] at this
    rw [refresh_result_mem]
    exact this

/-- Witness of C16: the first line of a frame of the compiled build, rendered
into line buffer 0. -/
theorem refresh_line_contents_witness :
    ∃ p r, fb_hw_at (steady 0 false false) (0 &&& 0xff) = some p
      ∧ test_notify_refresh_ready compiled (steady 0 false false) 0 = some r
      ∧ ((0 ≤ (underrun_adjust (steady 0 false false) 0).ofs_src
            ∧ (underrun_adjust (steady 0 false false) 0).ofs_src < (steady 0 false false).fb_buffer_width) →
          (∀ x k : Int, 0 ≤ x → x < 3 * (steady 0 false false).linebuf_width → 0 ≤ k → k < (steady 0 false false).linebuf_width →
            p + ((steady 0 false false).ofs_y + x)
              ≠ (steady 0 false false).m_fb_front + ((underrun_adjust (steady 0 false false) 0).ofs_src + k * (steady 0 false false).fb_buffer_width)) →
          (∀ x j : Int, 0 ≤ x → x < (steady 0 false false).linebuf_width → 0 ≤ j → j < 3 →
              r.1.mem (p + ((steady 0 false false).ofs_y + 3 * x + j))
                = (steady 0 false false).mem ((steady 0 false false).m_fb_front + ((underrun_adjust (steady 0 false false) 0).ofs_src
                    + ((steady 0 false false).linebuf_width - 1 - x) * (steady 0 false false).fb_buffer_width)))
            ∧ (∀ a, (a < p + (steady 0 false false).ofs_y ∨ p + (steady 0 false false).ofs_y + 3 * (steady 0 false false).linebuf_width ≤ a) →
              r.1.mem a = (steady 0 false false).mem a))
      ∧ (¬ (0 ≤ (underrun_adjust (steady 0 false false) 0).ofs_src
            ∧ (underrun_adjust (steady 0 false false) 0).ofs_src < (steady 0 false false).fb_buffer_width) →
          (∀ i : Int, 0 ≤ i → i < 720 → r.1.mem (p + i) = 0)
            ∧ (∀ a, (a < p ∨ p + 720 ≤ a) → r.1.mem a = (steady 0 false false).mem a)) :=
  refresh_line_contents (steady 0 false false) 0 (by decide)

/-! ## The cursor update -/

/-- The cursor after an invocation, from the cursor after the underrun
adjustment. -/
theorem refresh_result_cursor (cfg : Config) (s : State) (ctx : Nat) (p : Int) :
    (refresh_result cfg s ctx p).1.line_block_cnt
        = (if (underrun_adjust s ctx).line_block_cnt + 1 = cfg.v_res.tdiv cfg.scaling then 0
            else (underrun_adjust s ctx).line_block_cnt + 1)
      ∧ (refresh_result cfg s ctx p).1.ofs_src
        = (if (underrun_adjust s ctx).line_block_cnt + 1 = cfg.v_res.tdiv cfg.scaling
            then s.ofs_src_start
            else (underrun_adjust s ctx).ofs_src + s.ofs_src_line_inc) := by
  cases hb : at_boundary cfg s ctx
  · obtain ⟨_, _, hc, ho, _⟩ := refresh_result_inner cfg s ctx p hb
    simp only [at_boundary, decide_eq_false_iff_not] at hb
    rw [hc, ho, if_neg hb, if_neg hb]
    exact ⟨rfl, rfl⟩
  · obtain ⟨hc, ho, _⟩ := refresh_result_boundary cfg s ctx p hb
    simp only [at_boundary, decide_eq_true_eq] at hb
    rw [hc, ho, if_pos hb, if_pos hb]
    exact ⟨rfl, rfl⟩

theorem underrun_adjust_with_pacing (s : State) (ctx : Nat) (prefer : Int) (v f : Bool) :
    underrun_adjust (with_pacing s prefer v f) ctx
      = with_pacing (underrun_adjust s ctx) prefer v f := by
  unfold underrun_adjust with_pacing
  split_ifs <;> rfl

/-- C17: the cursor update of `test_notify_refresh_ready` does not depend on
the pacing mode or on the signals.  With `(n, c)` the cursor
`(line_block_cnt, ofs_src)` after the underrun adjustment, the invocation ends
with `(0, ofs_src_start)` if `n + 1 = TEST_LCD_V_RES / LCD_SCALING` and with
`(n + 1, c + ofs_src_line_inc)` otherwise, and it ends with the same cursor for
every other pacing mode and every other value of the two signals; so the cursor
is reset at a frame boundary also when tear-free mode finds `fb_ready`
unavailable. -/
theorem refresh_cursor_update (cfg : Config) (s : State) (ctx : Nat)
    (hline : line_ready s ctx = true) :
    ∃ r, test_notify_refresh_ready cfg s ctx = some r
      ∧ ((underrun_adjust s ctx).line_block_cnt + 1 = cfg.v_res.tdiv cfg.scaling →
          r.1.line_block_cnt = 0 ∧ r.1.ofs_src = s.ofs_src_start)
      ∧ ((underrun_adjust s ctx).line_block_cnt + 1 ≠ cfg.v_res.tdiv cfg.scaling →
          r.1.line_block_cnt = (underrun_adjust s ctx).line_block_cnt + 1
            ∧ r.1.ofs_src = (underrun_adjust s ctx).ofs_src + s.ofs_src_line_inc)
      ∧ ∀ (prefer : Int) (v f : Bool),
          ∃ r2, test_notify_refresh_ready cfg (with_pacing s prefer v f) ctx = some r2
            ∧ r2.1.line_block_cnt = r.1.line_block_cnt ∧ r2.1.ofs_src = r.1.ofs_src := by
  obtain ⟨p, hp, hp0⟩ := (line_ready_iff s ctx).1 hline
  obtain ⟨hc, ho⟩ := refresh_result_cursor cfg s ctx p
  refine ⟨_, (refresh_eq_some_iff cfg s ctx _).2 ⟨p, hp, hp0, rfl⟩, ?_, ?_, ?_⟩
  · intro hb
    rw [hc, ho, if_pos hb, if_pos hb]
    exact ⟨rfl, rfl⟩
  · intro hb
    rw [hc, ho, if_neg hb, if_neg hb]
    exact ⟨rfl, rfl⟩
  · intro prefer v f
    have hp2 : fb_hw_at (with_pacing s prefer v f) (ctx &&& 0xff) = some p := by
      rw [← hp]; unfold fb_hw_at with_pacing; rfl
    obtain ⟨hc2, ho2⟩ := refresh_result_cursor cfg (with_pacing s prefer v f) ctx p
    refine ⟨_, (refresh_eq_some_iff cfg _ ctx _).2 ⟨p, hp2, hp0, rfl⟩, ?_, ?_⟩
    · rw [hc2, hc, underrun_adjust_with_pacing]; rfl
    · rw [ho2, ho, underrun_adjust_with_pacing]; rfl

/-- Witness of C17: the last line of a frame in tear-free mode with `fb_ready`
unavailable. -/
theorem refresh_cursor_update_witness :
    ∃ r, test_notify_refresh_ready compiled (with_cursor (steady 1 false false) 279 239) 0
          = some r
      ∧ ((underrun_adjust (with_cursor (steady 1 false false) 279 239) 0).line_block_cnt + 1
            = compiled.v_res.tdiv compiled.scaling →
          r.1.line_block_cnt = 0
            ∧ r.1.ofs_src = (with_cursor (steady 1 false false) 279 239).ofs_src_start)
      ∧ ((underrun_adjust (with_cursor (steady 1 false false) 279 239) 0).line_block_cnt + 1
            ≠ compiled.v_res.tdiv compiled.scaling →
          r.1.line_block_cnt
              = (underrun_adjust (with_cursor (steady 1 false false) 279 239) 0).line_block_cnt
                + 1
            ∧ r.1.ofs_src
              = (underrun_adjust (with_cursor (steady 1 false false) 279 239) 0).ofs_src
                + (with_cursor (steady 1 false false) 279 239).ofs_src_line_inc)
      ∧ ∀ (prefer : Int) (v f : Bool),
          ∃ r2, test_notify_refresh_ready compiled
              (with_pacing (with_cursor (steady 1 false false) 279 239) prefer v f) 0 = some r2
            ∧ r2.1.line_block_cnt = r.1.line_block_cnt ∧ r2.1.ofs_src = r.1.ofs_src :=
  refresh_cursor_update compiled (with_cursor (steady 1 false false) 279 239) 0 (by decide)

/-! ## One vsync per frame in throughput mode -/

theorem line_ready_congr (s t : State) (c : Nat) (h0 : t.fb_hw0 = s.fb_hw0)
    (h1 : t.fb_hw1 = s.fb_hw1) : line_ready t c = line_ready s c := by
  unfold line_ready fb_hw_at
  rw [h0, h1]

/-- One invocation of the compiled build in throughput mode without underrun:
`vsync_event` is given exactly when the counter reaches 240, where it wraps. -/
theorem throughput_step (s : State) (ctx : Nat) (hp : s.prefer_vsync_over_fps = 0)
    (hu : ctx &&& 0xff00 = 0) (hline : line_ready s ctx = true) :
    ∃ r, test_notify_refresh_ready compiled s ctx = some r
      ∧ (Event.give_vsync ∈ r.2 ↔ s.line_block_cnt + 1 = 240)
      ∧ r.1.line_block_cnt
          = (if s.line_block_cnt + 1 = 240 then 0 else s.line_block_cnt + 1)
      ∧ r.1.prefer_vsync_over_fps = 0
      ∧ r.1.fb_hw0 = s.fb_hw0 ∧ r.1.fb_hw1 = s.fb_hw1 := by
  obtain ⟨p, hp1, hp0⟩ := (line_ready_iff s ctx).1 hline
  have hadj : underrun_adjust s ctx = s := by
    unfold underrun_adjust
    rw [if_neg (by simp [hu])]
  have h240 : compiled.v_res.tdiv compiled.scaling = 240 := by decide
  obtain ⟨_, hpref, _, _, _, f0, f1⟩ := refresh_result_frame compiled s ctx p
  obtain ⟨hc, _⟩ := refresh_result_cursor compiled s ctx p
  rw [hadj, h240] at hc
  have hng : Event.give_vsync ∉ (render_line compiled (underrun_adjust s ctx) p).2 :=
    fun h => (render_line_no_signal compiled _ p _ h).1 rfl
  refine ⟨_, (refresh_eq_some_iff compiled s ctx _).2 ⟨p, hp1, hp0, rfl⟩, ?_, hc,
    by rw [hpref, hp], f0, f1⟩
  cases hb : at_boundary compiled s ctx
  · obtain ⟨_, _, _, _, htr⟩ := refresh_result_inner compiled s ctx p hb
    simp only [at_boundary, hadj, h240, decide_eq_false_iff_not] at hb
    rw [htr]
    exact ⟨fun h => absurd h hng, fun h => absurd h hb⟩
  · obtain ⟨_, _, _, _, htr⟩ := refresh_result_boundary compiled s ctx p hb
    simp only [at_boundary, hadj, h240, decide_eq_true_eq] at hb
    rw [htr]
    simp [hp, hb]

/-- A run of the compiled build in throughput mode without underrun: it
returns, and the line counter has advanced modulo 240. -/
theorem throughput_run (ctxs : List Nat) (s : State) (hp : s.prefer_vsync_over_fps = 0)
    (h0 : 0 ≤ s.line_block_cnt) (h1 : s.line_block_cnt < 240)
    (hc : ∀ c ∈ ctxs, c &&& 0xff00 = 0 ∧ line_ready s c = true) :
    ∃ r, run_refresh compiled s ctxs = some r
      ∧ r.1.line_block_cnt = (s.line_block_cnt + ctxs.length) % 240
      ∧ r.1.prefer_vsync_over_fps = 0
      ∧ r.1.fb_hw0 = s.fb_hw0 ∧ r.1.fb_hw1 = s.fb_hw1 := by
  induction ctxs generalizing s with
  | nil =>
    refine ⟨(s, []), rfl, ?_, hp, rfl, rfl⟩
    simp only [List.length_nil, Nat.cast_zero, add_zero]
    omega
  | cons c cs ih =>
    obtain ⟨hcu, hcl⟩ := hc c (List.mem_cons_self c cs)
    obtain ⟨r1, e1, _, hcnt, hp1, f0, f1⟩ := throughput_step s c hp hcu hcl
    have hc1 : ∀ d ∈ cs, d &&& 0xff00 = 0 ∧ line_ready r1.1 d = true := by
      intro d hd
      obtain ⟨hdu, hdl⟩ := hc d (List.mem_cons_of_mem c hd)
      exact ⟨hdu, by rw [line_ready_congr s r1.1 d f0 f1]; exact hdl⟩
    obtain ⟨r2, e2, hcnt2, hp2, g0, g1⟩ := ih r1.1 hp1
      (by rw [hcnt]; split_ifs <;> omega) (by rw [hcnt]; split_ifs <;> omega) hc1
    refine ⟨(r2.1, r1.2 ++ r2.2), (run_refresh_cons compiled s c cs _).2 ⟨r1, r2, e1, e2, rfl⟩,
      ?_, hp2, by rw [g0, f0], by rw [g1, f1]⟩
    simp only [List.length_cons, Nat.cast_add, Nat.cast_one]
    rw [hcnt2, hcnt]
    split_ifs <;> omega

/-- The invocation that follows a run of the compiled build in throughput mode
without underrun gives `vsync_event` exactly when it brings the counter to a
multiple of 240. -/
theorem throughput_nth (ctxs : List Nat) (ctx : Nat) (s : State)
    (hp : s.prefer_vsync_over_fps = 0)
    (h0 : 0 ≤ s.line_block_cnt) (h1 : s.line_block_cnt < 240)
    (hc : ∀ c ∈ ctxs ++ [ctx], c &&& 0xff00 = 0 ∧ line_ready s c = true) :
    ∃ r r2, run_refresh compiled s ctxs = some r
      ∧ test_notify_refresh_ready compiled r.1 ctx = some r2
      ∧ (Event.give_vsync ∈ r2.2 ↔ (s.line_block_cnt + ctxs.length + 1) % 240 = 0) := by
  obtain ⟨r, e, hcnt, hp1, f0, f1⟩ := throughput_run ctxs s hp h0 h1
    (fun c hm => hc c (List.mem_append_left _ hm))
  obtain ⟨hu, hl⟩ := hc ctx (List.mem_append_right _ (List.mem_singleton_self ctx))
  obtain ⟨r2, e2, hg, _⟩ := throughput_step r.1 ctx hp1 hu
    (by rw [line_ready_congr s r.1 ctx f0 f1]; exact hl)
  refine ⟨r, r2, e, e2, ?_⟩
  rw [hg, hcnt]
  omega

theorem test_init_lcd_line_block_cnt (cfg : Config) (s : State) (lc : lcd_config_t)
    (hw0 hw1 : Int) :
    (test_init_lcd cfg s lc hw0 hw1).line_block_cnt = s.line_block_cnt := by
  unfold test_init_lcd calculate_image_offset calculate_image_offset_raw xSemaphoreGive
    xSemaphoreTake
  simp only
  split_ifs <;> simp

/-- C18, as the code has it: from the state left by initialisation
(`line_block_cnt = 2`, its initial value) in throughput mode and without
underrun, the `n`-th invocation of the compiled build gives `vsync_event` if
and only if `n + 2` is a multiple of 240: the first frame ends after 238
invocations, every later one after 240 more. -/
theorem vsync_once_per_frame (s0 : State) (w h hw0 hw1 : Int) (ctxs : List Nat)
    (ctx : Nat) (hcnt : s0.line_block_cnt = 2)
    (hc : ∀ c ∈ ctxs ++ [ctx], c &&& 0xff00 = 0
      ∧ line_ready (test_init_lcd compiled s0 ⟨w, h, 0⟩ hw0 hw1) c = true) :
    ∃ r r2, run_refresh compiled (test_init_lcd compiled s0 ⟨w, h, 0⟩ hw0 hw1) ctxs = some r
      ∧ test_notify_refresh_ready compiled r.1 ctx = some r2
      ∧ (Event.give_vsync ∈ r2.2 ↔ 240 ∣ ctxs.length + 1 + 2) := by
  have hi := test_init_lcd_line_block_cnt compiled s0 ⟨w, h, 0⟩ hw0 hw1
  rw [hcnt] at hi
  obtain ⟨r, r2, e, e2, hg⟩ := throughput_nth ctxs ctx
    (test_init_lcd compiled s0 ⟨w, h, 0⟩ hw0 hw1)
    (test_init_lcd_signals compiled s0 ⟨w, h, 0⟩ hw0 hw1).2.2
    (by rw [hi]; decide) (by rw [hi]; decide) hc
  refine ⟨r, r2, e, e2, ?_⟩
  rw [hg, hi]
  omega

/-- Witness of C18: the first invocation after initialisation of the 320 x 240
frame. -/
theorem vsync_once_per_frame_witness :
    ∃ r r2, run_refresh compiled
          (test_init_lcd compiled (boot (fun _ => 0)) ⟨320, 240, 0⟩ 1000 2000) [] = some r
      ∧ test_notify_refresh_ready compiled r.1 0 = some r2
      ∧ (Event.give_vsync ∈ r2.2 ↔ 240 ∣ ([] : List Nat).length + 1 + 2) :=
  vsync_once_per_frame (boot (fun _ => 0)) 320 240 1000 2000 [] 0 (by decide)
    (by
      intro c hm
      have hc0 : c = 0 := by simpa using hm
      subst hc0
      decide)

/-- C18 fails as stated: after initialisation of the 320 x 240 frame in
throughput mode the 238th invocation gives `vsync_event`, and 238 is not a
multiple of 240. -/
theorem first_vsync_at_238 :
    ∃ r r2, run_refresh compiled
          (test_init_lcd compiled (boot (fun _ => 0)) ⟨320, 240, 0⟩ 1000 2000)
          (List.replicate 237 0) = some r
      ∧ test_notify_refresh_ready compiled r.1 0 = some r2
      ∧ Event.give_vsync ∈ r2.2
      ∧ (List.replicate 237 0).length + 1 = 238 ∧ ¬ (240 ∣ 238) := by
  obtain ⟨r, r2, e, e2, hg⟩ := throughput_nth (List.replicate 237 0) 0
    (test_init_lcd compiled (boot (fun _ => 0)) ⟨320, 240, 0⟩ 1000 2000)
    (by decide) (by decide) (by decide)
    (by
      intro c hm
      have hc0 : c = 0 := by
        rcases List.mem_append.1 hm with h | h
        · exact (List.mem_replicate.1 h).2
        · simpa using h
      subst hc0
      decide)
  refine ⟨r, r2, e, e2, hg.2 ?_, by rw [List.length_replicate], by decide⟩
  have hl : (List.replicate 237 0).length = 237 := List.length_replicate 237 0
  have h2 : (test_init_lcd compiled (boot (fun _ => 0)) ⟨320, 240, 0⟩ 1000 2000).line_block_cnt
      = 2 := by decide
  rw [hl, h2]
  decide

/-! ## The start offset of an image that fits -/

/-- C19, as the code has it: when the scaled image is not larger than the panel
the start offset is the negated centring offset along the scan axis in source
pixels, so it is never positive, and it is 0 when that centring offset is
smaller than the scaling.  In the non-rotated branch, for `w * S ≤ H_RES` and
`h * S ≤ V_RES` (`S ≥ 1`), `ofs_src_start = -((V_RES - h * S) / 2 / S) * w`; in
the compiled rotated build, for `w * 3 ≤ 720`,
`ofs_src_start = -((720 - w * 3) / 2 / 3)`. -/
theorem ofs_src_start_when_fits :
    (∀ (S H V w h : Int) (s : State), 1 ≤ S → 0 ≤ w → w * S ≤ H → h * S ≤ V →
        (calculate_image_offset ⟨false, S, H, V⟩ (with_dims s w h)).ofs_src_start
            = -(((V - h * S).tdiv 2).tdiv S) * w
          ∧ (calculate_image_offset ⟨false, S, H, V⟩ (with_dims s w h)).ofs_src_start ≤ 0
          ∧ ((V - h * S).tdiv 2 < S →
            (calculate_image_offset ⟨false, S, H, V⟩ (with_dims s w h)).ofs_src_start = 0))
      ∧ (∀ (w h : Int) (s : State), w * 3 ≤ 720 →
        (calculate_image_offset compiled (with_dims s w h)).ofs_src_start
            = -(((720 - w * 3).tdiv 2).tdiv 3)
          ∧ (calculate_image_offset compiled (with_dims s w h)).ofs_src_start ≤ 0
          ∧ ((720 - w * 3).tdiv 2 < 3 →
            (calculate_image_offset compiled (with_dims s w h)).ofs_src_start = 0)) := by
  constructor
  · intro S H V w h s hS hw0 hw hh
    have hx : ¬ (H - w * S).tdiv 2 < 0 := by
      have : 0 ≤ (H - w * S).tdiv 2 := Int.tdiv_nonneg (by omega) (by omega)
      omega
    have hy : 0 ≤ (V - h * S).tdiv 2 := Int.tdiv_nonneg (by omega) (by omega)
    have hk : 0 ≤ ((V - h * S).tdiv 2).tdiv S := Int.tdiv_nonneg hy (by omega)
    rw [unrotated_start, if_neg hx, Int.neg_tdiv, sub_zero]
    refine ⟨rfl, ?_, ?_⟩
    · have : 0 ≤ ((V - h * S).tdiv 2).tdiv S * w := mul_nonneg hk hw0
      rw [neg_mul]; omega
    · intro hlt
      rw [Int.tdiv_eq_zero_of_lt hy hlt]
      simp
  · intro w h s hw
    have hx : 0 ≤ (720 - w * 3).tdiv 2 := Int.tdiv_nonneg (by omega) (by omega)
    have hk : 0 ≤ ((720 - w * 3).tdiv 2).tdiv 3 := Int.tdiv_nonneg hx (by omega)
    rw [show compiled = ⟨true, 3, 720, 720⟩ from rfl, rotated_start, Int.neg_tdiv]
    refine ⟨rfl, by omega, ?_⟩
    intro hlt
    rw [Int.tdiv_eq_zero_of_lt hx hlt]
    simp

/-- Witness of C19: the 240 x 240 frame, which fills the panel at scaling 3, in
both branches. -/
theorem ofs_src_start_when_fits_witness :
    (calculate_image_offset ⟨false, 3, 720, 720⟩
        (with_dims (boot (fun _ => 0)) 240 240)).ofs_src_start = 0
      ∧ (calculate_image_offset compiled
        (with_dims (boot (fun _ => 0)) 240 240)).ofs_src_start = 0 :=
  ⟨(ofs_src_start_when_fits.1 3 720 720 240 240 (boot (fun _ => 0))
      (by decide) (by decide) (by decide) (by decide)).2.2 (by decide),
    (ofs_src_start_when_fits.2 240 240 (boot (fun _ => 0)) (by decide)).2.2 (by decide)⟩

/-- C19 fails as stated: a 100 x 100 image fits the panel at scaling 3, and the
start offset is `-70` in the compiled rotated build and `-7000` in the
non-rotated branch. -/
theorem ofs_src_start_negative_at_100 :
    (100 : Int) * 3 ≤ 720
      ∧ (calculate_image_offset compiled
          (with_dims (boot (fun _ => 0)) 100 100)).ofs_src_start = -70
      ∧ (calculate_image_offset unrotated
          (with_dims (boot (fun _ => 0)) 100 100)).ofs_src_start = -7000 := by
  decide

/-! ## The line increment of the rotated build -/

/-- In the compiled rotated build the line increment is 1 as long as the image
is not taller than 241 lines. -/
theorem rotated_line_inc_small (w h : Int) (s : State) (hh : h ≤ 241) :
    (calculate_image_offset compiled (with_dims s w h)).ofs_src_line_inc = 1 := by
  simp only [calculate_image_offset, calculate_image_offset_raw, with_dims, compiled, if_true]
  split_ifs with hneg
  · dsimp only at hneg ⊢
    have hy : (720 - h * 3).tdiv 2 = -((-(720 - h * 3)) / 2) :=
      tdiv_of_nonpos (by
        by_contra hc
        have : 0 ≤ (720 - h * 3).tdiv 2 := Int.tdiv_nonneg (by omega) (by omega)
        omega) (by omega)
    have hz : ((720 - h * 3).tdiv 2).tdiv 3 = 0 := by
      rw [tdiv_of_nonpos (by omega) (by omega), hy]
      omega
    rw [hz]; simp
  · rfl

/-- C20 at the failing input: in the compiled rotated build the 320 x 242 frame
gets the line increment 321, not 1; the first line of a frame is read at
column 40, and the cursor of the second line, 361, is outside the source range,
so that line is blanked. -/
theorem rotated_line_inc_at_242 :
    (calculate_image_offset compiled
        (with_dims (boot (fun _ => 0)) 320 242)).ofs_src_line_inc = 321
      ∧ (calculate_image_offset compiled
        (with_dims (boot (fun _ => 0)) 320 242)).ofs_src = 40
      ∧ in_source_range compiled (calculate_image_offset compiled
          (with_dims (boot (fun _ => 0)) 320 242)) = true
      ∧ in_source_range compiled (with_cursor (calculate_image_offset compiled
          (with_dims (boot (fun _ => 0)) 320 242)) (40 + 321) 3) = false := by
  decide

/-! ## The clamp of the valid span -/

/-- One invocation in tear-free mode, on the signals: with `fb_ready`
unavailable nothing changes; with `fb_ready` available it is either left alone
or traded for `vsync_event`. -/
theorem refresh_step_signals_tear_free (cfg : Config) (s : State) (ctx : Nat)
    (r : State × List Event) (hp : s.prefer_vsync_over_fps ≠ 0)
    (h : test_notify_refresh_ready cfg s ctx = some r) :
    r.1.prefer_vsync_over_fps = s.prefer_vsync_over_fps
      ∧ ((r.1.vsync_event = s.vsync_event ∧ r.1.fb_ready = s.fb_ready)
        ∨ (s.fb_ready = true ∧ r.1.vsync_event = true ∧ r.1.fb_ready = false)) := by
  obtain ⟨p, _, _, rfl⟩ := (refresh_eq_some_iff cfg s ctx r).1 h
  obtain ⟨_, hpref, _⟩ := refresh_result_frame cfg s ctx p
  refine ⟨hpref, ?_⟩
  cases hb : at_boundary cfg s ctx
  · obtain ⟨hv, hf, _⟩ := refresh_result_inner cfg s ctx p hb
    exact Or.inl ⟨hv, hf⟩
  · obtain ⟨_, _, hv, hf, _⟩ := refresh_result_boundary cfg s ctx p hb
    rw [hv, hf]
    cases hr : s.fb_ready <;> simp [hp]

/-- A run of atomic steps in tear-free mode keeps exactly one of the two
signals available. -/
theorem run_actions_one_signal (cfg : Config) (as : List Action) (s s1 : State)
    (hp : s.prefer_vsync_over_fps ≠ 0) (hx : s.vsync_event ≠ s.fb_ready)
    (h : run_actions cfg s as = some s1) : s1.vsync_event ≠ s1.fb_ready := by
  induction as generalizing s with
  | nil =>
    simp only [run_actions, Option.some.injEq] at h
    subst h; exact hx
  | cons a as ih =>
    cases a with
    | send buffer length =>
      simp only [run_actions] at h
      cases hv : s.vsync_event with
      | false => simp [lcd_send_buffer_blocked s buffer length hv] at h
      | true =>
        obtain ⟨s2, h2, hv2, hf2, hp2, _⟩ := lcd_send_buffer_of_vsync s buffer length hv
        simp only [h2] at h
        exact ih s2 (by rw [hp2]; exact hp) (by rw [hv2, hf2]; decide) h
    | refresh ctx =>
      simp only [run_actions] at h
      cases hr : test_notify_refresh_ready cfg s ctx with
      | none => simp [hr] at h
      | some r =>
        simp only [hr] at h
        obtain ⟨hp2, hs⟩ := refresh_step_signals_tear_free cfg s ctx r hp hr
        refine ih r.1 (by rw [hp2]; exact hp) ?_ h
        rcases hs with ⟨hv, hf⟩ | ⟨_, hv, hf⟩
        · rw [hv, hf]; exact hx
        · rw [hv, hf]; decide

/-- C22: in tear-free mode, with the semaphores as booleans and
`lcd_send_buffer` (enabled only when `vsync_event` is available) and
`test_notify_refresh_ready` as atomic steps, in every state reachable from the
state left by `test_init_lcd` exactly one of `vsync_event` and `fb_ready` is
available. -/
theorem tear_free_one_signal (cfg : Config) (s0 : State) (lc : lcd_config_t)
    (hw0 hw1 : Int) (hp : lc.prefer_vsync_over_fps ≠ 0) :
    ∀ (as : List Action) (s : State),
      run_actions cfg (test_init_lcd cfg s0 lc hw0 hw1) as = some s →
      (s.vsync_event = true ∧ s.fb_ready = false)
        ∨ (s.vsync_event = false ∧ s.fb_ready = true) := by
  intro as s h
  obtain ⟨iv, ifr, ip⟩ := test_init_lcd_signals cfg s0 lc hw0 hw1
  have hx := run_actions_one_signal cfg as _ s (by rw [ip]; exact hp)
    (by rw [iv, ifr]; decide) h
  cases hv : s.vsync_event <;> cases hf : s.fb_ready <;> simp_all

/-- Witness of C22: the compiled build initialised for 320 x 240 in tear-free
mode; the run of one `lcd_send_buffer` followed by one callback invocation
exists. -/
theorem tear_free_one_signal_witness :
    (run_actions compiled (test_init_lcd compiled (boot (fun _ => 0)) ⟨320, 240, 1⟩ 1000 2000)
        [Action.send 300000 4, Action.refresh 0]).isSome = true
      ∧ ∀ (as : List Action) (s : State),
        run_actions compiled
            (test_init_lcd compiled (boot (fun _ => 0)) ⟨320, 240, 1⟩ 1000 2000) as = some s →
        (s.vsync_event = true ∧ s.fb_ready = false)
          ∨ (s.vsync_event = false ∧ s.fb_ready = true) :=
  ⟨by decide,
    tear_free_one_signal compiled (boot (fun _ => 0)) ⟨320, 240, 1⟩ 1000 2000 (by decide)⟩

/-- A run of callback invocations in tear-free mode from a state with both
signals unavailable leaves both unavailable. -/
theorem run_refresh_both_unavailable (cfg : Config) (ctxs : List Nat) (s : State)
    (r : State × List Event) (hp : s.prefer_vsync_over_fps ≠ 0)
    (hv : s.vsync_event = false) (hf : s.fb_ready = false)
    (h : run_refresh cfg s ctxs = some r) :
    r.1.vsync_event = false ∧ r.1.fb_ready = false := by
  induction ctxs generalizing s r with
  | nil =>
    simp only [run_refresh, Option.some.injEq] at h
    subst h; exact ⟨hv, hf⟩
  | cons c cs ih =>
    obtain ⟨r1, r2, h1, h2, rfl⟩ := (run_refresh_cons cfg s c cs r).1 h
    obtain ⟨hp1, hs⟩ := refresh_step_signals_tear_free cfg s c r1 hp h1
    have hboth : r1.1.vsync_event = false ∧ r1.1.fb_ready = false := by
      rcases hs with ⟨a, b⟩ | ⟨a, _, _⟩
      · exact ⟨by rw [a, hv], by rw [b, hf]⟩
      · rw [hf] at a; exact absurd a (by decide)
    exact ih r1.1 r2 (by rw [hp1]; exact hp) hboth.1 hboth.2 h2

/-- C23: in tear-free mode, from any state in which both `vsync_event` and
`fb_ready` are unavailable, no finite sequence of callback invocations makes
`vsync_event` available: after every such run both signals are still
unavailable, and `lcd_wait_vsync`, `lcd_sync` and `lcd_send_buffer` do not
return. -/
theorem tear_free_deadlock (cfg : Config) (s : State)
    (hp : s.prefer_vsync_over_fps ≠ 0) (hv : s.vsync_event = false)
    (hf : s.fb_ready = false) :
    ∀ (ctxs : List Nat) (r : State × List Event), run_refresh cfg s ctxs = some r →
      r.1.vsync_event = false ∧ r.1.fb_ready = false
        ∧ lcd_wait_vsync r.1 = none ∧ lcd_sync r.1 = none
        ∧ ∀ (buf : Int) (len : Nat), lcd_send_buffer r.1 buf len = none := by
  intro ctxs r h
  obtain ⟨hv1, hf1⟩ := run_refresh_both_unavailable cfg ctxs s r hp hv hf h
  have hw : lcd_wait_vsync r.1 = none := by
    unfold lcd_wait_vsync xSemaphoreTake
    simp [hv1]
  exact ⟨hv1, hf1, hw, hw, fun buf len => lcd_send_buffer_blocked r.1 buf len hv1⟩

/-- Witness of C23: the state in which `lcd_sync` has consumed `vsync_event`
and `fb_ready` was not given; a run of two callback invocations from it
exists. -/
theorem tear_free_deadlock_witness :
    lcd_sync (steady 1 true false) = some (steady 1 false false)
      ∧ (run_refresh compiled (steady 1 false false) [0, 0x100]).isSome = true
      ∧ ∀ (ctxs : List Nat) (r : State × List Event),
        run_refresh compiled (steady 1 false false) ctxs = some r →
        r.1.vsync_event = false ∧ r.1.fb_ready = false
          ∧ lcd_wait_vsync r.1 = none ∧ lcd_sync r.1 = none
          ∧ ∀ (buf : Int) (len : Nat), lcd_send_buffer r.1 buf len = none :=
  ⟨rfl, by decide,
    tear_free_deadlock compiled (steady 1 false false) (by decide) (by decide) (by decide)⟩

/-! ## The initialisation tables of the panel drivers -/

/-- With every transmission succeeding, `send_init_cmds` sends each entry of the
table as its command and the first `data_bytes` bytes of its data, in order. -/
theorem send_init_cmds_all_ok (cmds : List lcd_init_cmd_t) :
    send_init_cmds (fun _ _ => true) cmds
      = (cmds.map (fun c => (c.cmd, c.data.take c.data_bytes)), true) := by
  induction cmds with
  | nil => rfl
  | cons c cs ih => simp [send_init_cmds, ih]

/-- C24 at the failing entry: the default tables of `esp_lcd_hd395003c30.c` and
`esp_lcd_kd040hdfid032.c` declare for every entry other than `0x11` and `0x29`
as many data bytes as are listed, but in the default table of
`esp_lcd_dxq3d9502.c` the entry `0xC0` lists 9 data bytes and declares 0, and
it is the only such entry; so `panel_dxq3d9502_send_init_cmds` transmits `0xC0`
without parameters, where the other two drivers transmit its 9 bytes. -/
theorem dxq3d9502_set_scr_declares_zero :
    Hd395003c30.vendor_specific_init_default.all size_declared = true
      ∧ Kd040hdfid032.vendor_specific_init_default.all size_declared = true
      ∧ (Dxq3d9502.vendor_specific_init_default.filter (fun c => !size_declared c)).map
          (fun c => (c.cmd, c.data.length, c.data_bytes)) = [(0xC0, 9, 0)]
      ∧ ((Dxq3d9502.panel_dxq3d9502_send_init_cmds (fun _ _ => true) none).1.filter
          (fun x => x.1 == 0xC0)) = [(0xC0, [])]
      ∧ ((Hd395003c30.panel_hd395003c30_send_init_cmds (fun _ _ => true) none).1.filter
          (fun x => x.1 == 0xC0))
          = [(0xC0, [0x73, 0x73, 0x50, 0x50, 0x00, 0x00, 0x12, 0x73, 0x00])]
      ∧ ((Kd040hdfid032.panel_kd040hdfid032_send_init_cmds (fun _ _ => true) none).1.filter
          (fun x => x.1 == 0xC0))
          = [(0xC0, [0x73, 0x73, 0x50, 0x50, 0x00, 0x00, 0x08, 0x70, 0x00])] := by
  refine ⟨by decide, by decide, by decide, ?_, ?_, ?_⟩
  · unfold Dxq3d9502.panel_dxq3d9502_send_init_cmds
    rw [send_init_cmds_all_ok]
    decide
  · unfold Hd395003c30.panel_hd395003c30_send_init_cmds
    rw [send_init_cmds_all_ok]
    decide
  · unfold Kd040hdfid032.panel_kd040hdfid032_send_init_cmds
    rw [send_init_cmds_all_ok]
    decide

end Dsi
